import Mathlib

/-!
Shallow embedding of the `tree-sitter-db` entity-extraction engine
(`src/tree_sitter_db/extractors/{base,python_ext,c_ext,cpp_ext}.py`).

A syntax-tree node carries a type tag, an ordered list of children (each
optionally labelled with a field name, mirroring tree-sitter's named
fields), a byte range, and start/end rows.  Only the row component of
tree-sitter points is ever read by the extractors (`start_point[0]`,
`end_point[0]`), so the model stores rows directly.  Source text is
modelled as a sequence of characters; `get_node_text` slices the range
`[start_byte, end_byte)`, which coincides with the Python code's
byte-slice-and-decode for ASCII sources.
-/

/-- A tree-sitter syntax node: type tag, labelled children, byte range, rows. -/
inductive Node where
  | mk (ty : String) (children : List (Option String × Node))
       (startByte endByte : Nat) (startRow endRow : Nat)

mutual

/-- Structural equality test on nodes (models tree-sitter node comparison:
distinct nodes of one parse tree always differ, e.g. in byte range). -/
def nodeBeq : Node → Node → Bool
  | .mk t1 cs1 sb1 eb1 sr1 er1, .mk t2 cs2 sb2 eb2 sr2 er2 =>
      t1 == t2 && childrenBeq cs1 cs2 && sb1 == sb2 && eb1 == eb2 &&
        sr1 == sr2 && er1 == er2

def childrenBeq : List (Option String × Node) → List (Option String × Node) → Bool
  | [], [] => true
  | (l1, c1) :: r1, (l2, c2) :: r2 => l1 == l2 && nodeBeq c1 c2 && childrenBeq r1 r2
  | _, _ => false

end

mutual

theorem nodeBeq_iff : ∀ a b : Node, nodeBeq a b = true ↔ a = b
  | .mk t1 cs1 sb1 eb1 sr1 er1, .mk t2 cs2 sb2 eb2 sr2 er2 => by
      simp only [nodeBeq, Bool.and_eq_true, beq_iff_eq, Node.mk.injEq]
      rw [childrenBeq_iff cs1 cs2]
      tauto

theorem childrenBeq_iff :
    ∀ x y : List (Option String × Node), childrenBeq x y = true ↔ x = y
  | [], [] => by simp [childrenBeq]
  | (l1, c1) :: r1, (l2, c2) :: r2 => by
      simp only [childrenBeq, Bool.and_eq_true, beq_iff_eq, List.cons.injEq,
        Prod.mk.injEq]
      rw [nodeBeq_iff c1 c2, childrenBeq_iff r1 r2]
  | [], _ :: _ => by simp [childrenBeq]
  | _ :: _, [] => by simp [childrenBeq]

end

instance : BEq Node := ⟨nodeBeq⟩

instance : DecidableEq Node := fun a b =>
  decidable_of_iff (nodeBeq a b = true) (nodeBeq_iff a b)

instance : LawfulBEq Node where
  eq_of_beq h := (nodeBeq_iff _ _).mp h
  rfl := (nodeBeq_iff _ _).mpr rfl

def Node.ty : Node → String
  | .mk t _ _ _ _ _ => t

def Node.children : Node → List (Option String × Node)
  | .mk _ cs _ _ _ _ => cs

def Node.startByte : Node → Nat
  | .mk _ _ sb _ _ _ => sb

def Node.endByte : Node → Nat
  | .mk _ _ _ eb _ _ => eb

def Node.startRow : Node → Nat
  | .mk _ _ _ _ sr _ => sr

def Node.endRow : Node → Nat
  | .mk _ _ _ _ _ er => er

/-- `node.child_by_field_name(f)`: the first child carrying field label `f`. -/
def childByFieldName (n : Node) (f : String) : Option Node :=
  (n.children.find? (fun p => p.1 == some f)).map (fun p => p.2)

/-- `node.child(0)`: the first child, if any. -/
def child0 (n : Node) : Option Node :=
  n.children.head?.map (fun p => p.2)

/-- `get_node_text(node, source)`: `source[start_byte:end_byte]`. -/
def getNodeText (n : Node) (source : List Char) : String :=
  ((source.take n.endByte).drop n.startByte).asString

/-- Python truthiness of an optional string (`if name:`): neither `None` nor `""`. -/
def pyTruthy : Option String → Bool
  | some s => s ≠ ""
  | none => false

/-- Python `str.isspace` characters relevant to `str.strip()`. -/
def isPySpace (c : Char) : Bool :=
  c = ' ' || c = '\t' || c = '\n' || c = '\x0d' || c = '\x0b' || c = '\x0c'

/-- Python `str.startswith(p)`. -/
def pyStartsWith (s p : String) : Bool :=
  p.data.isPrefixOf s.data

/-- Python `str.strip()`: drop whitespace at both ends. -/
def pyStrip (s : String) : String :=
  ((s.data.dropWhile isPySpace).reverse.dropWhile isPySpace).reverse.asString

/-- Python `s[k:-k]` for `k ≥ 0` (clamping semantics). -/
def pySliceSym (k : Nat) (s : String) : String :=
  ((s.data.drop k).reverse.drop k).reverse.asString

mutual

/-- `walk_tree`: the depth-first pre-order node sequence of a subtree. -/
def preorder : Node → List Node
  | n@(.mk _ cs _ _ _ _) => n :: preorderChildren cs

def preorderChildren : List (Option String × Node) → List Node
  | [] => []
  | (_, c) :: rest => preorder c ++ preorderChildren rest

end

mutual

/-- Pre-order traversal that pairs each node with its ancestor chain
(nearest ancestor first), modelling `node.parent` chains. -/
def walkCtx : Node → List Node → List (Node × List Node)
  | n@(.mk _ cs _ _ _ _), anc => (n, anc) :: walkCtxChildren cs (n :: anc)

def walkCtxChildren : List (Option String × Node) → List Node →
    List (Node × List Node)
  | [], _ => []
  | (_, c) :: rest, anc => walkCtx c anc ++ walkCtxChildren rest anc

end

/-- `FunctionInfo` from `base.py`. -/
structure FunctionInfo where
  name : String
  line_start : Nat
  line_end : Nat
  signature : String
  class_name : Option String := none
  docstring : Option String := none
deriving DecidableEq, Repr

/-- `ClassInfo` from `base.py`. -/
structure ClassInfo where
  name : String
  line_start : Nat
  line_end : Nat
  bases : Option String := none
  docstring : Option String := none
deriving DecidableEq, Repr

/-- `ImportInfo` from `base.py`. -/
structure ImportInfo where
  module : String
  line : Nat
  «alias» : Option String := none
deriving DecidableEq, Repr

/-- `VariableInfo` from `base.py`. -/
structure VariableInfo where
  name : String
  line : Nat
  scope : String
  class_name : Option String := none
  type_hint : Option String := none
deriving DecidableEq, Repr

/-- `CallInfo` from `base.py`. -/
structure CallInfo where
  callee_name : String
  line : Nat
  caller_function : Option String := none
deriving DecidableEq, Repr

/-- The caller-lookup loop shared by all `extract_calls` implementations:
first range with `start ≤ pos ≤ end` wins. -/
def findCaller (ranges : List (Nat × Nat × String)) (pos : Nat) : Option String :=
  match ranges with
  | [] => none
  | (s, e, nm) :: rest =>
      if s ≤ pos ∧ pos ≤ e then some nm else findCaller rest pos

namespace PythonExtractor

/-- `PythonExtractor._get_parent_class`: walk ancestors for the nearest
`class_definition` that has a name field. -/
def _get_parent_class (anc : List Node) (source : List Char) : Option String :=
  match anc with
  | [] => none
  | p :: rest =>
      if p.ty == "class_definition" then
        match childByFieldName p "name" with
        | some nameNode => some (getNodeText nameNode source)
        | none => _get_parent_class rest source
      else _get_parent_class rest source

/-- Quote-stripping step of `_extract_docstring`: triple quotes first,
then single quotes; `none` when the text starts with no recognized quote. -/
def stripDocstringQuotes (text : String) : Option String :=
  if pyStartsWith text "\"\"\"" || pyStartsWith text "\x27\x27\x27" then
    some (pyStrip (pySliceSym 3 text))
  else if pyStartsWith text "\"" || pyStartsWith text "\x27" then
    some (pyStrip (pySliceSym 1 text))
  else none

/-- The scan loop of `_extract_docstring` over the body's children. -/
def docstringScan (cs : List (Option String × Node)) (source : List Char) :
    Option String :=
  match cs with
  | [] => none
  | (_, child) :: rest =>
      if child.ty == "expression_statement" then
        match child0 child with
        | some expr =>
            if expr.ty == "string" then
              match stripDocstringQuotes (getNodeText expr source) with
              | some d => some d
              | none => docstringScan rest source
            else docstringScan rest source
        | none => docstringScan rest source
      else if child.ty == "comment" then docstringScan rest source
      else none

/-- `PythonExtractor._extract_docstring`. -/
def _extract_docstring (body? : Option Node) (source : List Char) : Option String :=
  match body? with
  | none => none
  | some body => docstringScan body.children source

/-- `PythonExtractor._extract_function` (total: emits `"<unknown>"` when the
name field is absent). `anc` is the node's ancestor chain. -/
def _extract_function (node : Node) (anc : List Node) (source : List Char) :
    FunctionInfo :=
  let name := match childByFieldName node "name" with
    | some nn => getNodeText nn source
    | none => "<unknown>"
  let params := match childByFieldName node "parameters" with
    | some pn => getNodeText pn source
    | none => "()"
  let return_type := match childByFieldName node "return_type" with
    | some rn => getNodeText rn source
    | none => ""
  { name := name
    line_start := node.startRow + 1
    line_end := node.endRow + 1
    signature :=
      if return_type ≠ "" then "def " ++ name ++ params ++ " -> " ++ return_type
      else "def " ++ name ++ params
    class_name := _get_parent_class anc source
    docstring := _extract_docstring (childByFieldName node "body") source }

/-- `PythonExtractor.extract_functions`. -/
def extract_functions (tree : Node) (source : List Char) : List FunctionInfo :=
  (walkCtx tree []).filterMap (fun p =>
    if p.1.ty == "function_definition" then some (_extract_function p.1 p.2 source)
    else none)

/-- `PythonExtractor._extract_class`. -/
def _extract_class (node : Node) (source : List Char) : ClassInfo :=
  let name := match childByFieldName node "name" with
    | some nn => getNodeText nn source
    | none => "<unknown>"
  let bases := node.children.flatMap (fun p =>
    if p.2.ty == "argument_list" then
      p.2.children.filterMap (fun q =>
        if q.2.ty == "identifier" || q.2.ty == "attribute" then
          some (getNodeText q.2 source)
        else none)
    else [])
  { name := name
    line_start := node.startRow + 1
    line_end := node.endRow + 1
    bases := if bases ≠ [] then some (String.intercalate ", " bases) else none
    docstring := _extract_docstring (childByFieldName node "body") source }

/-- `PythonExtractor.extract_classes`. -/
def extract_classes (tree : Node) (source : List Char) : List ClassInfo :=
  (preorder tree).filterMap (fun n =>
    if n.ty == "class_definition" then some (_extract_class n source) else none)

/-- `PythonExtractor._extract_import` (`import x`, `import x as y`). -/
def _extract_import (node : Node) (source : List Char) : List ImportInfo :=
  node.children.filterMap (fun p =>
    let child := p.2
    if child.ty == "dotted_name" then
      some { module := getNodeText child source, line := node.startRow + 1 }
    else if child.ty == "aliased_import" then
      match childByFieldName child "name" with
      | some nameNode =>
          some { module := getNodeText nameNode source
                 line := node.startRow + 1
                 «alias» := (childByFieldName child "alias").map
                   (fun a => getNodeText a source) }
      | none => none
    else none)

/-- `PythonExtractor._extract_from_import` (`from x import y [as z]`). -/
def _extract_from_import (node : Node) (source : List Char) : List ImportInfo :=
  let module_node := childByFieldName node "module_name"
  let module := match module_node with
    | some mn => getNodeText mn source
    | none => ""
  node.children.filterMap (fun p =>
    let child := p.2
    if child.ty == "dotted_name" &&
        !(module_node.any (fun mn => nodeBeq child mn)) then
      let item := getNodeText child source
      some { module := if module ≠ "" then module ++ "." ++ item else item
             line := node.startRow + 1 }
    else if child.ty == "aliased_import" then
      match childByFieldName child "name" with
      | some nameNode =>
          let item := getNodeText nameNode source
          some { module := if module ≠ "" then module ++ "." ++ item else item
                 line := node.startRow + 1
                 «alias» := (childByFieldName child "alias").map
                   (fun a => getNodeText a source) }
      | none => none
    else none)

/-- `PythonExtractor.extract_imports`. -/
def extract_imports (tree : Node) (source : List Char) : List ImportInfo :=
  (preorder tree).flatMap (fun n =>
    if n.ty == "import_statement" then _extract_import n source
    else if n.ty == "import_from_statement" then _extract_from_import n source
    else [])

/-- `PythonExtractor._extract_assignment`; `anc` is the ancestor chain
(`anc.head? = node.parent`). -/
def _extract_assignment (node : Node) (anc : List Node) (source : List Char) :
    List VariableInfo :=
  match anc with
  | [] => []
  | parent :: rest =>
      if parent.ty == "expression_statement" then
        match rest with
        | [] => []
        | grandparent :: _ =>
            let scopeInfo : Option (String × Option String) :=
              if grandparent.ty == "module" then some ("global", none)
              else if grandparent.ty == "block" then
                let cn := _get_parent_class anc source
                if pyTruthy cn then some ("class", cn) else none
              else none
            match scopeInfo with
            | none => []
            | some (scope, class_name) =>
                match childByFieldName node "left" with
                | some left =>
                    if left.ty == "identifier" then
                      [{ name := getNodeText left source
                         line := node.startRow + 1
                         scope := scope
                         class_name := class_name }]
                    else []
                | none => []
      else []

/-- `PythonExtractor._extract_annotated_assignment`. -/
def _extract_annotated_assignment (node : Node) (anc : List Node)
    (source : List Char) : List VariableInfo :=
  match anc with
  | [] => []
  | parent :: _ =>
      if parent.ty == "module" || parent.ty == "block" then
        let scopeInfo : Option (String × Option String) :=
          if parent.ty == "module" then some ("global", none)
          else
            let cn := _get_parent_class anc source
            if pyTruthy cn then some ("class", cn) else none
        match scopeInfo with
        | none => []
        | some (scope, class_name) =>
            match childByFieldName node "name" with
            | some nameNode =>
                if nameNode.ty == "identifier" then
                  [{ name := getNodeText nameNode source
                     line := node.startRow + 1
                     scope := scope
                     class_name := class_name
                     type_hint := (childByFieldName node "type").map
                       (fun t => getNodeText t source) }]
                else []
            | none => []
      else []

/-- `PythonExtractor.extract_variables`. -/
def extract_variables (tree : Node) (source : List Char) : List VariableInfo :=
  (walkCtx tree []).flatMap (fun p =>
    if p.1.ty == "assignment" then _extract_assignment p.1 p.2 source
    else if p.1.ty == "annotated_assignment" then
      _extract_annotated_assignment p.1 p.2 source
    else [])

/-- Phase 1 of `PythonExtractor.extract_calls`: the function range table,
in pre-order (definition order). -/
def funcRanges (tree : Node) (source : List Char) : List (Nat × Nat × String) :=
  (preorder tree).filterMap (fun n =>
    if n.ty == "function_definition" then
      match childByFieldName n "name" with
      | some nn => some (n.startByte, n.endByte, getNodeText nn source)
      | none => none
    else none)

/-- `PythonExtractor.extract_calls`. -/
def extract_calls (tree : Node) (source : List Char) : List CallInfo :=
  let ranges := funcRanges tree source
  (preorder tree).filterMap (fun n =>
    if n.ty == "call" then
      match childByFieldName n "function" with
      | none => none
      | some fn =>
          let callee? : Option String :=
            if fn.ty == "identifier" then some (getNodeText fn source)
            else if fn.ty == "attribute" then
              (childByFieldName fn "attribute").map (fun a => getNodeText a source)
            else none
          callee?.map (fun callee =>
            { callee_name := callee
              line := n.startRow + 1
              caller_function := findCaller ranges n.startByte })
    else none)

end PythonExtractor

/-- First child (in order) satisfying a predicate; models `for child in
node.children: if P(child): return f(child)` loops. -/
def firstChildWhere (n : Node) (q : Node → Bool) : Option Node :=
  (n.children.find? (fun p => q p.2)).map (fun p => p.2)

theorem Node.sizeOf_child_lt {n : Node} {p : Option String × Node}
    (h : p ∈ n.children) : sizeOf p.2 < sizeOf n := by
  cases n with
  | mk t cs sb eb sr er =>
      have h1 : sizeOf p < sizeOf cs := List.sizeOf_lt_of_mem h
      have h2 : sizeOf p.2 ≤ sizeOf p := by
        cases p with
        | mk a b => simp only [Prod.mk.sizeOf_spec]; omega
      have h3 : sizeOf cs < sizeOf (Node.mk t cs sb eb sr er) := by
        simp only [Node.mk.sizeOf_spec]; omega
      simp only [Node.children] at h1
      omega

theorem findChild_sizeOf_lt {n : Node} {q : Option String × Node → Bool}
    {c : Node} (h : (n.children.find? q).map (fun p => p.2) = some c) :
    sizeOf c < sizeOf n := by
  rcases Option.map_eq_some'.mp h with ⟨p, hp, hpc⟩
  rw [← hpc]
  exact Node.sizeOf_child_lt (List.mem_of_find?_eq_some hp)

theorem childByFieldName_sizeOf_lt {n c : Node} {f : String}
    (h : childByFieldName n f = some c) : sizeOf c < sizeOf n :=
  findChild_sizeOf_lt h

theorem firstChildWhere_sizeOf_lt {n c : Node} {q : Node → Bool}
    (h : firstChildWhere n q = some c) : sizeOf c < sizeOf n :=
  findChild_sizeOf_lt h

/-- Python `str.strip(chars)` with an explicit character set. -/
def pyStripChars (s : String) (set : List Char) : String :=
  ((s.data.dropWhile (fun c => set.contains c)).reverse.dropWhile
    (fun c => set.contains c)).reverse.asString

namespace CExtractor

/-- `CExtractor._extract_declarator_info`: recursively recover (name,
parameter-list text) from a C declarator chain. -/
def _extract_declarator_info (node : Node) (source : List Char) :
    Option String × String :=
  if node.ty == "function_declarator" then
    let params := match childByFieldName node "parameters" with
      | some pn => getNodeText pn source
      | none => "()"
    match h : childByFieldName node "declarator" with
    | some decl =>
        if decl.ty == "identifier" then (some (getNodeText decl source), params)
        else ((_extract_declarator_info decl source).1, params)
    | none => (none, "()")
  else if node.ty == "pointer_declarator" then
    match h : childByFieldName node "declarator" with
    | some decl => _extract_declarator_info decl source
    | none => (none, "()")
  else if node.ty == "identifier" then
    (some (getNodeText node source), "()")
  else if node.ty == "parenthesized_declarator" then
    match h : firstChildWhere node (fun c => !(c.ty == "(" || c.ty == ")")) with
    | some child => _extract_declarator_info child source
    | none => (none, "()")
  else (none, "()")
termination_by sizeOf node
decreasing_by
  · exact childByFieldName_sizeOf_lt h
  · exact childByFieldName_sizeOf_lt h
  · exact firstChildWhere_sizeOf_lt h

/-- `CExtractor._extract_function`. -/
def _extract_function (node : Node) (source : List Char) : Option FunctionInfo :=
  match childByFieldName node "declarator" with
  | none => none
  | some declarator =>
      let info := _extract_declarator_info declarator source
      if pyTruthy info.1 then
        let name := info.1.getD ""
        let return_type := match childByFieldName node "type" with
          | some tn => getNodeText tn source
          | none => "void"
        some { name := name
               line_start := node.startRow + 1
               line_end := node.endRow + 1
               signature := return_type ++ " " ++ name ++ info.2 }
      else none

/-- `CExtractor.extract_functions`. -/
def extract_functions (tree : Node) (source : List Char) : List FunctionInfo :=
  (preorder tree).filterMap (fun n =>
    if n.ty == "function_definition" then _extract_function n source else none)

/-- `CExtractor._extract_struct`. -/
def _extract_struct (node : Node) (source : List Char) : Option ClassInfo :=
  match childByFieldName node "name" with
  | none => none
  | some nameNode =>
      some { name := getNodeText nameNode source
             line_start := node.startRow + 1
             line_end :=
               if (childByFieldName node "body").isSome then node.endRow + 1
               else node.startRow + 1 }

/-- `CExtractor.extract_classes`. -/
def extract_classes (tree : Node) (source : List Char) : List ClassInfo :=
  (preorder tree).filterMap (fun n =>
    if n.ty == "struct_specifier" then _extract_struct n source else none)

/-- `CExtractor.extract_imports`. -/
def extract_imports (tree : Node) (source : List Char) : List ImportInfo :=
  (preorder tree).filterMap (fun n =>
    if n.ty == "preproc_include" then
      (childByFieldName n "path").map (fun pathNode =>
        { module := pyStripChars (getNodeText pathNode source) ['"', '<', '>']
          line := n.startRow + 1 })
    else none)

/-- `CExtractor._get_var_name`. -/
def _get_var_name (node : Node) (source : List Char) : Option String :=
  if node.ty == "identifier" then some (getNodeText node source)
  else if node.ty == "init_declarator" || node.ty == "pointer_declarator" ||
      node.ty == "array_declarator" then
    match h : childByFieldName node "declarator" with
    | some decl => _get_var_name decl source
    | none =>
        match firstChildWhere node (fun c => c.ty == "identifier") with
        | some child => some (getNodeText child source)
        | none => none
  else none
termination_by sizeOf node
decreasing_by
  exact childByFieldName_sizeOf_lt h

/-- `CExtractor._extract_declaration`. -/
def _extract_declaration (node : Node) (source : List Char) : List VariableInfo :=
  let type_str := (childByFieldName node "type").map (fun t => getNodeText t source)
  match childByFieldName node "declarator" with
  | none => []
  | some declarator =>
      let name? := _get_var_name declarator source
      if pyTruthy name? then
        [{ name := name?.getD ""
           line := node.startRow + 1
           scope := "global"
           type_hint := type_str }]
      else []

/-- `CExtractor.extract_variables`: only declarations whose parent is the
translation unit. -/
def extract_variables (tree : Node) (source : List Char) : List VariableInfo :=
  (walkCtx tree []).flatMap (fun p =>
    if p.1.ty == "declaration" then
      match p.2 with
      | parent :: _ =>
          if parent.ty == "translation_unit" then _extract_declaration p.1 source
          else []
      | [] => []
    else [])

/-- Phase 1 of `CExtractor.extract_calls`. -/
def funcRanges (tree : Node) (source : List Char) : List (Nat × Nat × String) :=
  (preorder tree).filterMap (fun n =>
    if n.ty == "function_definition" then
      match childByFieldName n "declarator" with
      | some declarator =>
          let name? := (_extract_declarator_info declarator source).1
          if pyTruthy name? then some (n.startByte, n.endByte, name?.getD "")
          else none
      | none => none
    else none)

/-- `CExtractor.extract_calls`. -/
def extract_calls (tree : Node) (source : List Char) : List CallInfo :=
  let ranges := funcRanges tree source
  (preorder tree).filterMap (fun n =>
    if n.ty == "call_expression" then
      match childByFieldName n "function" with
      | some fn =>
          if fn.ty == "identifier" then
            some { callee_name := getNodeText fn source
                   line := n.startRow + 1
                   caller_function := findCaller ranges n.startByte }
          else none
      | none => none
    else none)

end CExtractor

/-- Occurrence positions of `sep` in `cs` (indices where `sep` is a prefix
of the remaining suffix). -/
def sepOccurrences (cs sep : List Char) : List Nat :=
  (List.range (cs.length + 1)).filter (fun i => sep.isPrefixOf (cs.drop i))

/-- Python `sep in s` for strings. -/
def pyContains (s sep : String) : Bool :=
  !(sepOccurrences s.data sep.data).isEmpty

/-- Python `s.rsplit(sep, 1)` when `sep` occurs in `s`: split at the last
occurrence. -/
def pyRSplitLast (s sep : String) : Option (String × String) :=
  match (sepOccurrences s.data sep.data).max? with
  | some i => some ((s.data.take i).asString,
                    (s.data.drop (i + sep.data.length)).asString)
  | none => none

namespace CppExtractor

/-- `CppExtractor._extract_declarator_info`: like the C version plus
`qualified_identifier`, `field_identifier` and `reference_declarator`. -/
def _extract_declarator_info (node : Node) (source : List Char) :
    Option String × String :=
  if node.ty == "function_declarator" then
    let params := match childByFieldName node "parameters" with
      | some pn => getNodeText pn source
      | none => "()"
    match h : childByFieldName node "declarator" with
    | some decl =>
        if decl.ty == "identifier" || decl.ty == "qualified_identifier" ||
            decl.ty == "field_identifier" then
          (some (getNodeText decl source), params)
        else ((_extract_declarator_info decl source).1, params)
    | none => (none, "()")
  else if node.ty == "pointer_declarator" then
    match h : childByFieldName node "declarator" with
    | some decl => _extract_declarator_info decl source
    | none => (none, "()")
  else if node.ty == "reference_declarator" then
    match h : firstChildWhere node (fun c => !(c.ty == "&" || c.ty == "&&")) with
    | some child => _extract_declarator_info child source
    | none => (none, "()")
  else if node.ty == "identifier" || node.ty == "qualified_identifier" ||
      node.ty == "field_identifier" then
    (some (getNodeText node source), "()")
  else if node.ty == "parenthesized_declarator" then
    match h : firstChildWhere node (fun c => !(c.ty == "(" || c.ty == ")")) with
    | some child => _extract_declarator_info child source
    | none => (none, "()")
  else (none, "()")
termination_by sizeOf node
decreasing_by
  · exact childByFieldName_sizeOf_lt h
  · exact childByFieldName_sizeOf_lt h
  · exact firstChildWhere_sizeOf_lt h
  · exact firstChildWhere_sizeOf_lt h

/-- `CppExtractor._extract_function`: splits `Class::method` names on the
last `::` into (class_name, name). -/
def _extract_function (node : Node) (source : List Char) : Option FunctionInfo :=
  match childByFieldName node "declarator" with
  | none => none
  | some declarator =>
      let info := _extract_declarator_info declarator source
      if pyTruthy info.1 then
        let rawName := info.1.getD ""
        let return_type := match childByFieldName node "type" with
          | some tn => getNodeText tn source
          | none => "void"
        let split : Option String × String :=
          if pyContains rawName "::" then
            match pyRSplitLast rawName "::" with
            | some (cls, m) => (some cls, m)
            | none => (none, rawName)
          else (none, rawName)
        some { name := split.2
               line_start := node.startRow + 1
               line_end := node.endRow + 1
               signature := return_type ++ " " ++ split.2 ++ info.2
               class_name := split.1 }
      else none

/-- `CppExtractor.extract_functions`. -/
def extract_functions (tree : Node) (source : List Char) : List FunctionInfo :=
  (preorder tree).filterMap (fun n =>
    if n.ty == "function_definition" then _extract_function n source else none)

/-- `CppExtractor._extract_class`. -/
def _extract_class (node : Node) (source : List Char) : Option ClassInfo :=
  match childByFieldName node "name" with
  | none => none
  | some nameNode =>
      let bases := node.children.flatMap (fun p =>
        if p.2.ty == "base_class_clause" then
          p.2.children.filterMap (fun q =>
            if q.2.ty == "type_identifier" || q.2.ty == "qualified_identifier" then
              some (getNodeText q.2 source)
            else none)
        else [])
      some { name := getNodeText nameNode source
             line_start := node.startRow + 1
             line_end :=
               if (childByFieldName node "body").isSome then node.endRow + 1
               else node.startRow + 1
             bases := if bases ≠ [] then some (String.intercalate ", " bases)
                      else none }

/-- `CppExtractor.extract_classes`. -/
def extract_classes (tree : Node) (source : List Char) : List ClassInfo :=
  (preorder tree).filterMap (fun n =>
    if n.ty == "class_specifier" || n.ty == "struct_specifier" then
      _extract_class n source
    else none)

/-- `CppExtractor.extract_imports`. -/
def extract_imports (tree : Node) (source : List Char) : List ImportInfo :=
  (preorder tree).filterMap (fun n =>
    if n.ty == "preproc_include" then
      (childByFieldName n "path").map (fun pathNode =>
        { module := pyStripChars (getNodeText pathNode source) ['"', '<', '>']
          line := n.startRow + 1 })
    else none)

/-- `CppExtractor._get_parent_class`. -/
def _get_parent_class (anc : List Node) (source : List Char) : Option String :=
  match anc with
  | [] => none
  | p :: rest =>
      if p.ty == "class_specifier" || p.ty == "struct_specifier" then
        match childByFieldName p "name" with
        | some nameNode => some (getNodeText nameNode source)
        | none => _get_parent_class rest source
      else _get_parent_class rest source

/-- `CppExtractor._get_var_name` (also accepts `field_identifier`). -/
def _get_var_name (node : Node) (source : List Char) : Option String :=
  if node.ty == "identifier" || node.ty == "field_identifier" then
    some (getNodeText node source)
  else if node.ty == "init_declarator" || node.ty == "pointer_declarator" ||
      node.ty == "array_declarator" then
    match h : childByFieldName node "declarator" with
    | some decl => _get_var_name decl source
    | none =>
        match firstChildWhere node
            (fun c => c.ty == "identifier" || c.ty == "field_identifier") with
        | some child => some (getNodeText child source)
        | none => none
  else none
termination_by sizeOf node
decreasing_by
  exact childByFieldName_sizeOf_lt h

/-- `CppExtractor._extract_declaration`. -/
def _extract_declaration (node : Node) (source : List Char) (scope : String)
    (class_name : Option String) : List VariableInfo :=
  let type_str := (childByFieldName node "type").map (fun t => getNodeText t source)
  match childByFieldName node "declarator" with
  | none => []
  | some declarator =>
      let name? := _get_var_name declarator source
      if pyTruthy name? then
        [{ name := name?.getD ""
           line := node.startRow + 1
           scope := scope
           class_name := class_name
           type_hint := type_str }]
      else []

/-- `CppExtractor._extract_field`. -/
def _extract_field (node : Node) (source : List Char) (class_name : String) :
    List VariableInfo :=
  let type_str := (childByFieldName node "type").map (fun t => getNodeText t source)
  match childByFieldName node "declarator" with
  | none => []
  | some declarator =>
      let name? := _get_var_name declarator source
      if pyTruthy name? then
        [{ name := name?.getD ""
           line := node.startRow + 1
           scope := "class"
           class_name := some class_name
           type_hint := type_str }]
      else []

/-- `CppExtractor.extract_variables`. -/
def extract_variables (tree : Node) (source : List Char) : List VariableInfo :=
  (walkCtx tree []).flatMap (fun p =>
    if p.1.ty == "declaration" then
      match p.2 with
      | parent :: _ =>
          if parent.ty == "translation_unit" then
            _extract_declaration p.1 source "global" none
          else []
      | [] => []
    else if p.1.ty == "field_declaration" then
      match _get_parent_class p.2 source with
      | some cn => if cn ≠ "" then _extract_field p.1 source cn else []
      | none => []
    else [])

/-- Phase 1 of `CppExtractor.extract_calls`: C++ method names are stripped
of their `Class::` qualification. -/
def funcRanges (tree : Node) (source : List Char) : List (Nat × Nat × String) :=
  (preorder tree).filterMap (fun n =>
    if n.ty == "function_definition" then
      match childByFieldName n "declarator" with
      | some declarator =>
          let name? := (_extract_declarator_info declarator source).1
          if pyTruthy name? then
            let nm := name?.getD ""
            let nm :=
              if pyContains nm "::" then
                match pyRSplitLast nm "::" with
                | some (_, m) => m
                | none => nm
              else nm
            some (n.startByte, n.endByte, nm)
          else none
      | none => none
    else none)

/-- `CppExtractor.extract_calls`. -/
def extract_calls (tree : Node) (source : List Char) : List CallInfo :=
  let ranges := funcRanges tree source
  (preorder tree).filterMap (fun n =>
    if n.ty == "call_expression" then
      match childByFieldName n "function" with
      | none => none
      | some fn =>
          let callee? : Option String :=
            if fn.ty == "identifier" || fn.ty == "qualified_identifier" then
              some (getNodeText fn source)
            else if fn.ty == "field_expression" then
              (childByFieldName fn "field").map (fun f => getNodeText f source)
            else none
          match callee? with
          | some callee =>
              if callee ≠ "" then
                some { callee_name := callee
                       line := n.startRow + 1
                       caller_function := findCaller ranges n.startByte }
              else none
          | none => none
    else none)

end CppExtractor

/-!
Concrete syntax trees used below, mirroring real tree-sitter parses.
-/

/-- Python source `class C:\n    def m(self):\n        x = 5`. -/
def srcPyMethodAssign : List Char :=
  "class C:\n    def m(self):\n        x = 5".data

def nPyIdX : Node := .mk "identifier" [] 34 35 2 2
def nPyNum5 : Node := .mk "integer" [] 38 39 2 2
def nPyAssign : Node :=
  .mk "assignment" [(some "left", nPyIdX), (some "right", nPyNum5)] 34 39 2 2
def nPyExprStmt : Node := .mk "expression_statement" [(none, nPyAssign)] 34 39 2 2
def nPyFnBlock : Node := .mk "block" [(none, nPyExprStmt)] 34 39 2 2
def nPyIdM : Node := .mk "identifier" [] 17 18 1 1
def nPyParams : Node := .mk "parameters" [] 18 24 1 1
def nPyFnDef : Node :=
  .mk "function_definition"
    [(some "name", nPyIdM), (some "parameters", nPyParams),
     (some "body", nPyFnBlock)] 13 39 1 2
def nPyClassBlock : Node := .mk "block" [(none, nPyFnDef)] 13 39 1 2
def nPyIdC : Node := .mk "identifier" [] 6 7 0 0
def nPyClassDef : Node :=
  .mk "class_definition"
    [(some "name", nPyIdC), (some "body", nPyClassBlock)] 0 39 0 2
def treePyMethodAssign : Node := .mk "module" [(none, nPyClassDef)] 0 39 0 2

/-- A Python `function_definition` node with no `name` field, inside a module. -/
def nPyAnonFn : Node := .mk "function_definition" [] 0 12 0 0
def treePyAnonFn : Node := .mk "module" [(none, nPyAnonFn)] 0 12 0 0

/-- C declarator of `int (*f(int a))(char)`: a function returning a
pointer to function, with two nested `function_declarator`s. -/
def srcCNestedFn : List Char := "int (*f(int a))(char)".data
def nCIdF : Node := .mk "identifier" [] 6 7 0 0
def nCInnerParams : Node := .mk "parameter_list" [] 7 14 0 0
def nCInnerFnDecl : Node :=
  .mk "function_declarator"
    [(some "declarator", nCIdF), (some "parameters", nCInnerParams)] 6 14 0 0
def nCStar : Node := .mk "*" [] 5 6 0 0
def nCPtrDecl : Node :=
  .mk "pointer_declarator" [(none, nCStar), (some "declarator", nCInnerFnDecl)]
    5 14 0 0
def nCLParen : Node := .mk "(" [] 4 5 0 0
def nCRParen : Node := .mk ")" [] 14 15 0 0
def nCParenDecl : Node :=
  .mk "parenthesized_declarator"
    [(none, nCLParen), (none, nCPtrDecl), (none, nCRParen)] 4 15 0 0
def nCOuterParams : Node := .mk "parameter_list" [] 15 21 0 0
def nCOuterFnDecl : Node :=
  .mk "function_declarator"
    [(some "declarator", nCParenDecl), (some "parameters", nCOuterParams)]
    4 21 0 0

/-- C source `int (*fp)(void);`: a global pointer-to-function variable. -/
def srcCFnPtrVar : List Char := "int (*fp)(void);".data
def nCIdFp : Node := .mk "identifier" [] 6 8 0 0
def nCFpStar : Node := .mk "*" [] 5 6 0 0
def nCFpPtrDecl : Node :=
  .mk "pointer_declarator" [(none, nCFpStar), (some "declarator", nCIdFp)] 5 8 0 0
def nCFpLParen : Node := .mk "(" [] 4 5 0 0
def nCFpRParen : Node := .mk ")" [] 8 9 0 0
def nCFpParenDecl : Node :=
  .mk "parenthesized_declarator"
    [(none, nCFpLParen), (none, nCFpPtrDecl), (none, nCFpRParen)] 4 9 0 0
def nCFpParams : Node := .mk "parameter_list" [] 9 15 0 0
def nCFpFnDecl : Node :=
  .mk "function_declarator"
    [(some "declarator", nCFpParenDecl), (some "parameters", nCFpParams)] 4 15 0 0
def nCFpType : Node := .mk "primitive_type" [] 0 3 0 0
def nCFpDecl : Node :=
  .mk "declaration"
    [(some "type", nCFpType), (some "declarator", nCFpFnDecl)] 0 16 0 0
def treeCFnPtrVar : Node := .mk "translation_unit" [(none, nCFpDecl)] 0 16 0 0

/-- Python function body whose first statement is a call and whose second
statement is a string literal (`foo()` then `"doc"`). -/
def srcPyLateString : List Char := "foo()\n\"doc\"".data
def nPyFooId : Node := .mk "identifier" [] 0 3 0 0
def nPyCallArgs : Node := .mk "argument_list" [] 3 5 0 0
def nPyCall : Node :=
  .mk "call" [(some "function", nPyFooId), (some "arguments", nPyCallArgs)] 0 5 0 0
def nPyCallStmt : Node := .mk "expression_statement" [(none, nPyCall)] 0 5 0 0
def nPyStr : Node := .mk "string" [] 6 11 1 1
def nPyStrStmt : Node := .mk "expression_statement" [(none, nPyStr)] 6 11 1 1
def nPyLateBody : Node :=
  .mk "block" [(none, nPyCallStmt), (none, nPyStrStmt)] 0 11 0 1

/-- C source `struct S { int x; };` with an explicit field declaration. -/
def srcCStructField : List Char := "struct S { int x; };".data
def nCFieldIdX : Node := .mk "field_identifier" [] 15 16 0 0
def nCFieldType : Node := .mk "primitive_type" [] 11 14 0 0
def nCFieldDecl : Node :=
  .mk "field_declaration"
    [(some "type", nCFieldType), (some "declarator", nCFieldIdX)] 11 17 0 0
def nCFieldList : Node := .mk "field_declaration_list" [(none, nCFieldDecl)] 9 19 0 0
def nCIdS : Node := .mk "type_identifier" [] 7 8 0 0
def nCStructSpec : Node :=
  .mk "struct_specifier"
    [(some "name", nCIdS), (some "body", nCFieldList)] 0 19 0 0
def treeCStructField : Node := .mk "translation_unit" [(none, nCStructSpec)] 0 20 0 0

namespace CExtractor

mutual

/-- Spec-side reading of §4.2 for the refinement comparison: the parameter
text of the INNERMOST `function_declarator` along the declarator chain
("parameters belong to the innermost function_declarator").  Written by
structural recursion (descending through a child found by label or
predicate) so that it evaluates on concrete trees. -/
def specInnermostFnParams : Node → List Char → Option String
  | n@(.mk _ cs _ _ _ _), source =>
      if n.ty == "function_declarator" then
        let own := match childByFieldName n "parameters" with
          | some pn => getNodeText pn source
          | none => "()"
        match specInnermostLabeled cs "declarator" source with
        | some (some p) => some p
        | some none => some own
        | none => some own
      else if n.ty == "pointer_declarator" then
        match specInnermostLabeled cs "declarator" source with
        | some r => r
        | none => none
      else if n.ty == "parenthesized_declarator" then
        match specInnermostNonParen cs source with
        | some r => r
        | none => none
      else none

/-- Recurse into the first child labeled `f`; `none` when no such child. -/
def specInnermostLabeled : List (Option String × Node) → String → List Char →
    Option (Option String)
  | [], _, _ => none
  | (l, c) :: rest, f, source =>
      if l == some f then some (specInnermostFnParams c source)
      else specInnermostLabeled rest f source

/-- Recurse into the first child that is not a parenthesis token. -/
def specInnermostNonParen : List (Option String × Node) → List Char →
    Option (Option String)
  | [], _ => none
  | (_, c) :: rest, source =>
      if !(c.ty == "(" || c.ty == ")") then some (specInnermostFnParams c source)
      else specInnermostNonParen rest source

end

/-- The parameter text of the FIRST `function_declarator` met while
unwrapping pointer/parenthesized wrappers (the outermost one): what the C
resolver actually propagates. -/
def firstFnParams (n : Node) (source : List Char) : Option String :=
  if n.ty == "function_declarator" then
    some (match childByFieldName n "parameters" with
          | some pn => getNodeText pn source
          | none => "()")
  else if n.ty == "pointer_declarator" then
    match h : childByFieldName n "declarator" with
    | some d => firstFnParams d source
    | none => none
  else if n.ty == "parenthesized_declarator" then
    match h : firstChildWhere n (fun c => !(c.ty == "(" || c.ty == ")")) with
    | some c => firstFnParams c source
    | none => none
  else none
termination_by sizeOf n
decreasing_by
  · exact childByFieldName_sizeOf_lt h
  · exact firstChildWhere_sizeOf_lt h

end CExtractor

namespace CppExtractor

/-- The parameter text of the first `function_declarator` met while
unwrapping pointer/reference/parenthesized wrappers (C++ variant). -/
def firstFnParams (n : Node) (source : List Char) : Option String :=
  if n.ty == "function_declarator" then
    some (match childByFieldName n "parameters" with
          | some pn => getNodeText pn source
          | none => "()")
  else if n.ty == "pointer_declarator" then
    match h : childByFieldName n "declarator" with
    | some d => firstFnParams d source
    | none => none
  else if n.ty == "reference_declarator" then
    match h : firstChildWhere n (fun c => !(c.ty == "&" || c.ty == "&&")) with
    | some c => firstFnParams c source
    | none => none
  else if n.ty == "parenthesized_declarator" then
    match h : firstChildWhere n (fun c => !(c.ty == "(" || c.ty == ")")) with
    | some c => firstFnParams c source
    | none => none
  else none
termination_by sizeOf n
decreasing_by
  · exact childByFieldName_sizeOf_lt h
  · exact firstChildWhere_sizeOf_lt h
  · exact firstChildWhere_sizeOf_lt h

end CppExtractor

namespace PythonExtractor

/-- The stripped string value of a child when it is a bare string-literal
expression statement with a recognized quote, else `none`. -/
def stmtStringValue (c : Node) (source : List Char) : Option String :=
  if c.ty == "expression_statement" then
    match child0 c with
    | some e =>
        if e.ty == "string" then stripDocstringQuotes (getNodeText e source)
        else none
    | none => none
  else none

/-- Children the docstring scan steps over without stopping. -/
def scanSkips (c : Node) (source : List Char) : Bool :=
  c.ty == "comment" ||
    (c.ty == "expression_statement" && (stmtStringValue c source).isNone)

/-- Spec-side reading of the docstring rule: only the FIRST non-comment
statement may provide the docstring. -/
def specFirstStmtDocstring (cs : List (Option String × Node))
    (source : List Char) : Option String :=
  match cs with
  | [] => none
  | (_, c) :: rest =>
      if c.ty == "comment" then specFirstStmtDocstring rest source
      else stmtStringValue c source

end PythonExtractor

/-- A cursor frame: the current node plus its not-yet-visited right
siblings (with field labels). -/
structure Frame where
  node : Node
  sibs : List (Option String × Node)

/-- Nodes remaining in the sibling stacks of a cursor state. -/
def frameWork (st : List Frame) : Nat :=
  (st.map (fun fr => (preorderChildren fr.sibs).length)).sum

/-- Unvisited-node count of a cursor state. -/
def work : List Frame → Bool → Nat
  | [], _ => 0
  | fr :: rest, true => frameWork (fr :: rest)
  | fr :: rest, false => (preorder fr.node).length + frameWork (fr :: rest)

/-- Termination measure for the `walk_tree` loop. -/
def loopMeasure : List Frame → Bool → Nat
  | st, true => 3 * work st true + st.length + 1
  | st, false => 3 * work st false + st.length

theorem preorder_length (n : Node) :
    (preorder n).length = 1 + (preorderChildren n.children).length := by
  cases n with
  | mk t cs sb eb sr er => simp [preorder, Node.children]; omega

theorem preorderChildren_cons (p : Option String × Node)
    (rest : List (Option String × Node)) :
    (preorderChildren (p :: rest)).length =
      (preorder p.2).length + (preorderChildren rest).length := by
  cases p with
  | mk l c => simp [preorderChildren]

theorem frameWork_cons (fr : Frame) (rest : List Frame) :
    frameWork (fr :: rest) = (preorderChildren fr.sibs).length + frameWork rest := by
  simp [frameWork]

/-- The `walk_tree` while-loop from `base.py`, on explicit cursor state:
when not `visited`, yield the current node and descend to its first child;
otherwise move to the next sibling, else pop to the parent with
`visited = True`; stop when the root frame is exhausted. -/
def loopGo : List Frame → Bool → List Node
  | [], _ => []
  | ⟨.mk t (c :: cs) sb eb sr er, sibs⟩ :: rest, false =>
      Node.mk t (c :: cs) sb eb sr er ::
        loopGo (⟨c.2, cs⟩ :: ⟨.mk t (c :: cs) sb eb sr er, sibs⟩ :: rest) false
  | ⟨.mk t [] sb eb sr er, s :: ss⟩ :: rest, false =>
      Node.mk t [] sb eb sr er :: loopGo (⟨s.2, ss⟩ :: rest) false
  | ⟨.mk t [] sb eb sr er, []⟩ :: [], false => [Node.mk t [] sb eb sr er]
  | ⟨.mk t [] sb eb sr er, []⟩ :: r :: rs, false =>
      Node.mk t [] sb eb sr er :: loopGo (r :: rs) true
  | ⟨_, s :: ss⟩ :: rest, true => loopGo (⟨s.2, ss⟩ :: rest) false
  | ⟨_, []⟩ :: [], true => []
  | ⟨_, []⟩ :: r :: rs, true => loopGo (r :: rs) true
termination_by st v => loopMeasure st v
decreasing_by
  · have hlen := preorder_length (Node.mk t (c :: cs) sb eb sr er)
    simp only [Node.children, preorderChildren_cons] at hlen
    simp only [loopMeasure, work, frameWork_cons, List.length_cons]
    omega
  · have hlen := preorder_length (Node.mk t [] sb eb sr er)
    simp only [Node.children, preorderChildren, List.length_nil] at hlen
    simp only [loopMeasure, work, frameWork_cons, preorderChildren_cons,
      List.length_cons]
    omega
  · have hlen := preorder_length (Node.mk t [] sb eb sr er)
    simp only [Node.children, preorderChildren, List.length_nil] at hlen
    simp only [loopMeasure, work, frameWork_cons, preorderChildren,
      List.length_nil, List.length_cons]
    omega
  · simp only [loopMeasure, work, frameWork_cons, preorderChildren_cons,
      List.length_cons]
    omega
  · simp only [loopMeasure, work, frameWork_cons, preorderChildren,
      List.length_nil, List.length_cons]
    omega

/-- `walk_tree(node)`: run the cursor loop from a fresh cursor rooted at
`node` (`visited = False`, no siblings, no parent stack). -/
def walk_tree_cursor (n : Node) : List Node :=
  loopGo [⟨n, []⟩] false

/-- Nodes still owed by a cursor state once the current subtree is done. -/
def pending : List Frame → List Node
  | [] => []
  | fr :: rest => preorderChildren fr.sibs ++ pending rest

/-- Every node of the subtree has `startRow ≤ endRow` (true of every real
tree-sitter tree). -/
def rowsOk (t : Node) : Prop :=
  ∀ n ∈ preorder t, n.startRow ≤ n.endRow

instance (t : Node) : Decidable (rowsOk t) :=
  show Decidable (∀ n ∈ preorder t, n.startRow ≤ n.endRow) from
    List.decidableBAll (fun n => n.startRow ≤ n.endRow) (preorder t)

/-- What one loop pass from a given cursor state must produce. -/
def loopExpected : List Frame → Bool → List Node
  | [], _ => []
  | st, true => pending st
  | (fr :: rest), false => preorder fr.node ++ pending (fr :: rest)

/-- Python source `def g():\n    h()\nk()`: a call inside a function and a
module-level call. -/
def srcPyCalls : List Char := "def g():\n    h()\nk()".data
def nPyIdG : Node := .mk "identifier" [] 4 5 0 0
def nPyGParams : Node := .mk "parameters" [] 5 7 0 0
def nPyIdH : Node := .mk "identifier" [] 13 14 1 1
def nPyHArgs : Node := .mk "argument_list" [] 14 16 1 1
def nPyHCall : Node :=
  .mk "call" [(some "function", nPyIdH), (some "arguments", nPyHArgs)] 13 16 1 1
def nPyHStmt : Node := .mk "expression_statement" [(none, nPyHCall)] 13 16 1 1
def nPyGBlock : Node := .mk "block" [(none, nPyHStmt)] 13 16 1 1
def nPyGDef : Node :=
  .mk "function_definition"
    [(some "name", nPyIdG), (some "parameters", nPyGParams),
     (some "body", nPyGBlock)] 0 16 0 1
def nPyIdK : Node := .mk "identifier" [] 17 18 2 2
def nPyKArgs : Node := .mk "argument_list" [] 18 20 2 2
def nPyKCall : Node :=
  .mk "call" [(some "function", nPyIdK), (some "arguments", nPyKArgs)] 17 20 2 2
def nPyKStmt : Node := .mk "expression_statement" [(none, nPyKCall)] 17 20 2 2
def treePyCalls : Node := .mk "module" [(none, nPyGDef), (none, nPyKStmt)] 0 20 0 2

/-- C source `void f() { g(); }`. -/
def srcCCalls : List Char := "void f() { g(); }".data
def nCVoid : Node := .mk "primitive_type" [] 0 4 0 0
def nCIdFnF : Node := .mk "identifier" [] 5 6 0 0
def nCFParams : Node := .mk "parameter_list" [] 6 8 0 0
def nCFDeclr : Node :=
  .mk "function_declarator"
    [(some "declarator", nCIdFnF), (some "parameters", nCFParams)] 5 8 0 0
def nCIdG2 : Node := .mk "identifier" [] 11 12 0 0
def nCGArgs : Node := .mk "argument_list" [] 12 14 0 0
def nCGCall : Node :=
  .mk "call_expression"
    [(some "function", nCIdG2), (some "arguments", nCGArgs)] 11 14 0 0
def nCGStmt : Node := .mk "expression_statement" [(none, nCGCall)] 11 15 0 0
def nCFBody : Node := .mk "compound_statement" [(none, nCGStmt)] 9 17 0 0
def nCFnDefF : Node :=
  .mk "function_definition"
    [(some "type", nCVoid), (some "declarator", nCFDeclr),
     (some "body", nCFBody)] 0 17 0 0
def treeCCalls : Node := .mk "translation_unit" [(none, nCFnDefF)] 0 17 0 0

/-- C++ source `class W { int y; };` with an explicit field declaration. -/
def srcCppClassField : List Char := "class W { int y; };".data
def nCppIdY : Node := .mk "field_identifier" [] 14 15 0 0
def nCppFieldType : Node := .mk "primitive_type" [] 10 13 0 0
def nCppFieldDecl : Node :=
  .mk "field_declaration"
    [(some "type", nCppFieldType), (some "declarator", nCppIdY)] 10 16 0 0
def nCppFieldList : Node := .mk "field_declaration_list" [(none, nCppFieldDecl)] 8 18 0 0
def nCppIdW : Node := .mk "type_identifier" [] 6 7 0 0
def nCppClassSpec : Node :=
  .mk "class_specifier"
    [(some "name", nCppIdW), (some "body", nCppFieldList)] 0 18 0 0
def treeCppClassField : Node := .mk "translation_unit" [(none, nCppClassSpec)] 0 19 0 0

/-- C++ declarator of `int *foo(int a, char b)`. -/
def srcCppPtrFoo : List Char := "int *foo(int a, char b)".data
def nCppIdFoo : Node := .mk "identifier" [] 5 8 0 0
def nCppFooParams : Node := .mk "parameter_list" [] 8 23 0 0
def nCppFooFnDecl : Node :=
  .mk "function_declarator"
    [(some "declarator", nCppIdFoo), (some "parameters", nCppFooParams)] 5 23 0 0
def nCppFooStar : Node := .mk "*" [] 4 5 0 0
def nCppFooPtr : Node :=
  .mk "pointer_declarator"
    [(none, nCppFooStar), (some "declarator", nCppFooFnDecl)] 4 23 0 0

/-- C source `int x;`: one global variable declaration. -/
def srcCGlobal : List Char := "int x;".data
def nCGlobType : Node := .mk "primitive_type" [] 0 3 0 0
def nCGlobId : Node := .mk "identifier" [] 4 5 0 0
def nCGlobDecl : Node :=
  .mk "declaration" [(some "type", nCGlobType), (some "declarator", nCGlobId)] 0 6 0 0
def treeCGlobal : Node := .mk "translation_unit" [(none, nCGlobDecl)] 0 6 0 0

/-- A function-definition node whose declarator has an unrecognized type,
so name resolution fails. -/
def nCBadDecl : Node := .mk "abstract_function_declarator" [] 0 0 0 0
def nCBadFnDef : Node := .mk "function_definition" [(some "declarator", nCBadDecl)] 0 0 0 0

/-- A function-definition node with no declarator field at all. -/
def nCNoDeclFnDef : Node := .mk "function_definition" [] 0 0 0 0

/-- C source `struct S;`: a forward declaration without a body. -/
def srcCFwd : List Char := "struct S;".data
def nCFwdName : Node := .mk "type_identifier" [] 7 8 0 0
def nCFwdStruct : Node := .mk "struct_specifier" [(some "name", nCFwdName)] 0 9 0 0

/-!
### Supporting lemmas
-/

mutual

theorem walkCtx_map_fst : ∀ (n : Node) (anc : List Node),
    (walkCtx n anc).map Prod.fst = preorder n
  | .mk t cs sb eb sr er, anc => by
      rw [walkCtx, preorder]
      simp only [List.map_cons]
      rw [walkCtxChildren_map_fst cs]

theorem walkCtxChildren_map_fst : ∀ (cs : List (Option String × Node))
    (anc : List Node),
    (walkCtxChildren cs anc).map Prod.fst = preorderChildren cs
  | [], _ => by simp [walkCtxChildren, preorderChildren]
  | (l, c) :: rest, anc => by
      rw [walkCtxChildren, preorderChildren]
      simp only [List.map_append]
      rw [walkCtx_map_fst c anc, walkCtxChildren_map_fst rest anc]

end

theorem mem_walkCtx_fst {t : Node} {p : Node × List Node}
    (h : p ∈ walkCtx t []) : p.1 ∈ preorder t := by
  rw [← walkCtx_map_fst t []]
  exact List.mem_map_of_mem Prod.fst h

theorem findCaller_eq_find? (ranges : List (Nat × Nat × String)) (pos : Nat) :
    findCaller ranges pos =
      (ranges.find? (fun r => decide (r.1 ≤ pos) && decide (pos ≤ r.2.1))).map
        (fun r => r.2.2) := by
  induction ranges with
  | nil => rfl
  | cons r rest ih =>
      rcases r with ⟨s, e, nm⟩
      by_cases hc : s ≤ pos ∧ pos ≤ e
      · simp [findCaller, hc, List.find?_cons, hc.1, hc.2]
      · have hb : (decide (s ≤ pos) && decide (pos ≤ e)) = false := by
          simp only [Bool.and_eq_false_iff, decide_eq_false_iff_not]
          tauto
        simp [findCaller, hc, List.find?_cons, hb, ih]

theorem findCaller_eq_none_iff (ranges : List (Nat × Nat × String)) (pos : Nat) :
    findCaller ranges pos = none ↔
      ∀ r ∈ ranges, ¬(r.1 ≤ pos ∧ pos ≤ r.2.1) := by
  induction ranges with
  | nil => simp [findCaller]
  | cons r rest ih =>
      rcases r with ⟨s, e, nm⟩
      by_cases hc : s ≤ pos ∧ pos ≤ e
      · simp [findCaller, hc]
      · rw [findCaller, if_neg hc, ih]
        constructor
        · intro h r hr
          rcases List.mem_cons.mp hr with rfl | hr'
          · exact hc
          · exact h r hr'
        · intro h r hr
          exact h r (List.mem_cons_of_mem _ hr)

theorem loopGo_spec (st : List Frame) (v : Bool) :
    loopGo st v = loopExpected st v := by
  induction st, v using loopGo.induct
  case case1 v => cases v <;> simp [loopGo, loopExpected]
  case case2 t c cs sb eb sr er sibs rest ih =>
      rw [loopGo, ih]
      simp [loopExpected, pending, preorder, preorderChildren, List.append_assoc]
  case case3 t sb eb sr er s ss rest ih =>
      rw [loopGo, ih]
      simp [loopExpected, pending, preorder, preorderChildren, List.append_assoc]
  case case4 t sb eb sr er =>
      rw [loopGo]
      simp [loopExpected, pending, preorder, preorderChildren]
  case case5 t sb eb sr er r rs ih =>
      rw [loopGo, ih]
      simp [loopExpected, pending, preorder, preorderChildren]
  case case6 fr s ss rest ih =>
      rw [loopGo, ih]
      simp [loopExpected, pending, preorderChildren, List.append_assoc]
  case case7 fr =>
      rw [loopGo]
      simp [loopExpected, pending, preorderChildren]
  case case8 fr r rs ih =>
      rw [loopGo, ih]
      simp [loopExpected, pending, preorderChildren]

theorem walk_tree_cursor_eq (n : Node) : walk_tree_cursor n = preorder n := by
  rw [walk_tree_cursor, loopGo_spec]
  cases n with
  | mk t cs sb eb sr er => simp [loopExpected, pending, preorderChildren]

namespace PythonExtractor

theorem docstringScan_cons (l : Option String) (c : Node)
    (tl : List (Option String × Node)) (src : List Char) :
    docstringScan ((l, c) :: tl) src =
      match stmtStringValue c src with
      | some d => some d
      | none => if scanSkips c src then docstringScan tl src else none := by
  by_cases h1 : c.ty = "expression_statement"
  · rw [docstringScan]
    cases he : child0 c with
    | none =>
        have hv : stmtStringValue c src = none := by
          rw [stmtStringValue]; simp [h1, he]
        have hsk : scanSkips c src = true := by
          rw [scanSkips]; simp [h1, hv]
        simp [h1, he, hv, hsk]
    | some e =>
        by_cases h2 : e.ty = "string"
        · cases hs : stripDocstringQuotes (getNodeText e src) with
          | some d0 =>
              have hv : stmtStringValue c src = some d0 := by
                rw [stmtStringValue]; simp [h1, he, h2, hs]
              simp [h1, he, h2, hs, hv]
          | none =>
              have hv : stmtStringValue c src = none := by
                rw [stmtStringValue]; simp [h1, he, h2, hs]
              have hsk : scanSkips c src = true := by
                rw [scanSkips]; simp [h1, hv]
              simp [h1, he, h2, hs, hv, hsk]
        · have hv : stmtStringValue c src = none := by
            rw [stmtStringValue]
            simp [h1, he, show (e.ty == "string") = false by simpa using h2]
          have hsk : scanSkips c src = true := by
            rw [scanSkips]; simp [h1, hv]
          simp [h1, he, show (e.ty == "string") = false by simpa using h2, hv, hsk]
  · rw [docstringScan]
    have h1' : (c.ty == "expression_statement") = false := by simpa using h1
    have hv : stmtStringValue c src = none := by
      rw [stmtStringValue]; simp [h1']
    by_cases h3 : c.ty = "comment"
    · have hsk : scanSkips c src = true := by rw [scanSkips]; simp [h3]
      simp [h1', h3, hv, hsk]
    · have h3' : (c.ty == "comment") = false := by simpa using h3
      have hsk : scanSkips c src = false := by
        rw [scanSkips]; simp [h1', h3']
      simp [h1', h3', hv, hsk]

theorem docstringScan_eq_some_iff (cs : List (Option String × Node))
    (src : List Char) (d : String) :
    docstringScan cs src = some d ↔
      ∃ pre p post, cs = pre ++ p :: post ∧
        stmtStringValue p.2 src = some d ∧
        ∀ q ∈ pre, scanSkips q.2 src = true := by
  induction cs with
  | nil =>
      simp only [docstringScan]
      constructor
      · intro h; cases h
      · rintro ⟨pre, p, post, habs, -, -⟩
        exact absurd habs (by simp)
  | cons hd tl ih =>
      rcases hd with ⟨l, c⟩
      rw [docstringScan_cons]
      cases hv : stmtStringValue c src with
      | some d0 =>
          simp only [Option.some.injEq]
          constructor
          · intro h
            exact ⟨[], (l, c), tl, rfl, by rw [hv, h], by simp⟩
          · rintro ⟨pre, p, post, hsplit, hval, hskip⟩
            cases pre with
            | nil =>
                simp only [List.nil_append, List.cons.injEq] at hsplit
                rw [← hsplit.1] at hval
                rw [hv] at hval
                exact (Option.some.injEq _ _).mp hval
            | cons q qs =>
                simp only [List.cons_append, List.cons.injEq] at hsplit
                have hq := hskip q (List.mem_cons_self q qs)
                rw [← hsplit.1] at hq
                have hexpr : c.ty = "expression_statement" := by
                  by_contra hne
                  rw [stmtStringValue] at hv
                  simp [show (c.ty == "expression_statement") = false by
                    simpa using hne] at hv
                rw [scanSkips, hv] at hq
                simp [hexpr] at hq
      | none =>
          by_cases hsk : scanSkips c src = true
          · simp only [hsk, if_true]
            rw [ih]
            constructor
            · rintro ⟨pre, p, post, hsplit, hval, hskip⟩
              refine ⟨(l, c) :: pre, p, post, by rw [hsplit]; rfl, hval, ?_⟩
              intro q hq
              rcases List.mem_cons.mp hq with rfl | h
              · exact hsk
              · exact hskip q h
            · rintro ⟨pre, p, post, hsplit, hval, hskip⟩
              cases pre with
              | nil =>
                  simp only [List.nil_append, List.cons.injEq] at hsplit
                  rw [← hsplit.1] at hval
                  rw [hv] at hval; cases hval
              | cons q qs =>
                  simp only [List.cons_append, List.cons.injEq] at hsplit
                  exact ⟨qs, p, post, hsplit.2, hval,
                    fun r hr => hskip r (List.mem_cons_of_mem q hr)⟩
          · have hsk' : scanSkips c src = false := by
              simpa using hsk
            simp only [hsk', Bool.false_eq_true, if_false]
            constructor
            · intro h; cases h
            · rintro ⟨pre, p, post, hsplit, hval, hskip⟩
              exfalso
              cases pre with
              | nil =>
                  simp only [List.nil_append, List.cons.injEq] at hsplit
                  rw [← hsplit.1] at hval
                  rw [hv] at hval; cases hval
              | cons q qs =>
                  simp only [List.cons_append, List.cons.injEq] at hsplit
                  have hq := hskip q (List.mem_cons_self q qs)
                  rw [← hsplit.1] at hq
                  rw [hsk'] at hq
                  cases hq

end PythonExtractor

theorem c_first_params (n : Node) (src : List Char) :
    ∀ p, CExtractor.firstFnParams n src = some p →
      (CExtractor._extract_declarator_info n src).1.isSome = true →
      (CExtractor._extract_declarator_info n src).2 = p := by
  induction n, src using CExtractor.firstFnParams.induct with
  | case1 n src h =>
      intro p hp hname
      rw [CExtractor.firstFnParams.eq_def] at hp
      simp only [h, if_true, Option.some.injEq] at hp
      rw [CExtractor._extract_declarator_info.eq_def] at hname ⊢
      simp only [h, if_true] at hname ⊢
      split at hname
      · split <;> simp [hp]
      · simp at hname
  | case2 n src h1 h2 decl hd ih =>
      intro p hp hname
      rw [CExtractor.firstFnParams.eq_def] at hp
      simp only [h1, h2, if_true, Bool.false_eq_true, if_false] at hp
      split at hp
      · rename_i d hd'
        rw [hd'] at hd
        injection hd with hd
        subst hd
        rw [CExtractor._extract_declarator_info.eq_def] at hname ⊢
        simp only [h1, h2, if_true, Bool.false_eq_true, if_false] at hname ⊢
        rw [hd'] at hname ⊢
        exact ih p hp hname
      · rename_i hd'
        rw [hd'] at hd
        cases hd
  | case3 n src h1 h2 hd =>
      intro p hp hname
      rw [CExtractor.firstFnParams.eq_def] at hp
      simp only [h1, h2, if_true, Bool.false_eq_true, if_false] at hp
      split at hp
      · rename_i d hd'
        rw [hd'] at hd
        cases hd
      · cases hp
  | case4 n src h1 h2 h3 decl hd ih =>
      intro p hp hname
      have hni : (n.ty == "identifier") = false := by
        by_contra hne
        simp only [Bool.not_eq_false, beq_iff_eq] at hne
        rw [hne] at h3
        simp at h3
      rw [CExtractor.firstFnParams.eq_def] at hp
      simp only [h1, h2, h3, if_true, Bool.false_eq_true, if_false] at hp
      split at hp
      · rename_i d hd'
        rw [hd'] at hd
        injection hd with hd
        subst hd
        rw [CExtractor._extract_declarator_info.eq_def] at hname ⊢
        simp only [h1, h2, h3, hni, if_true, Bool.false_eq_true, if_false]
          at hname ⊢
        rw [hd'] at hname ⊢
        exact ih p hp hname
      · rename_i hd'
        rw [hd'] at hd
        cases hd
  | case5 n src h1 h2 h3 hd =>
      intro p hp hname
      rw [CExtractor.firstFnParams.eq_def] at hp
      simp only [h1, h2, h3, if_true, Bool.false_eq_true, if_false] at hp
      split at hp
      · rename_i d hd'
        rw [hd'] at hd
        cases hd
      · cases hp
  | case6 n src h1 h2 h3 =>
      intro p hp hname
      rw [CExtractor.firstFnParams.eq_def] at hp
      simp only [h1, h2, h3, Bool.false_eq_true, if_false] at hp
      cases hp

theorem cpp_first_params (n : Node) (src : List Char) :
    ∀ p, CppExtractor.firstFnParams n src = some p →
      (CppExtractor._extract_declarator_info n src).1.isSome = true →
      (CppExtractor._extract_declarator_info n src).2 = p := by
  induction n, src using CppExtractor.firstFnParams.induct with
  | case1 n src h =>
      intro p hp hname
      rw [CppExtractor.firstFnParams.eq_def] at hp
      simp only [h, if_true, Option.some.injEq] at hp
      rw [CppExtractor._extract_declarator_info.eq_def] at hname ⊢
      simp only [h, if_true] at hname ⊢
      split at hname
      · split <;> simp [hp]
      · simp at hname
  | case2 n src h1 h2 decl hd ih =>
      intro p hp hname
      rw [CppExtractor.firstFnParams.eq_def] at hp
      simp only [h1, h2, if_true, Bool.false_eq_true, if_false] at hp
      split at hp
      · rename_i d hd'
        rw [hd'] at hd
        injection hd with hd
        subst hd
        rw [CppExtractor._extract_declarator_info.eq_def] at hname ⊢
        simp only [h1, h2, if_true, Bool.false_eq_true, if_false] at hname ⊢
        rw [hd'] at hname ⊢
        exact ih p hp hname
      · rename_i hd'
        rw [hd'] at hd
        cases hd
  | case3 n src h1 h2 hd =>
      intro p hp hname
      rw [CppExtractor.firstFnParams.eq_def] at hp
      simp only [h1, h2, if_true, Bool.false_eq_true, if_false] at hp
      split at hp
      · rename_i d hd'
        rw [hd'] at hd
        cases hd
      · cases hp
  | case4 n src h1 h2 h3 decl hd ih =>
      intro p hp hname
      rw [CppExtractor.firstFnParams.eq_def] at hp
      simp only [h1, h2, h3, if_true, Bool.false_eq_true, if_false] at hp
      split at hp
      · rename_i d hd'
        rw [hd'] at hd
        injection hd with hd
        subst hd
        rw [CppExtractor._extract_declarator_info.eq_def] at hname ⊢
        simp only [h1, h2, h3, if_true, Bool.false_eq_true, if_false] at hname ⊢
        rw [hd'] at hname ⊢
        exact ih p hp hname
      · rename_i hd'
        rw [hd'] at hd
        cases hd
  | case5 n src h1 h2 h3 hd =>
      intro p hp hname
      rw [CppExtractor.firstFnParams.eq_def] at hp
      simp only [h1, h2, h3, if_true, Bool.false_eq_true, if_false] at hp
      split at hp
      · rename_i d hd'
        rw [hd'] at hd
        cases hd
      · cases hp
  | case6 n src h1 h2 h3 h4 decl hd ih =>
      intro p hp hname
      have hni1 : (n.ty == "identifier") = false := by
        by_contra hne
        simp only [Bool.not_eq_false, beq_iff_eq] at hne
        rw [hne] at h4
        simp at h4
      have hni2 : (n.ty == "qualified_identifier") = false := by
        by_contra hne
        simp only [Bool.not_eq_false, beq_iff_eq] at hne
        rw [hne] at h4
        simp at h4
      have hni3 : (n.ty == "field_identifier") = false := by
        by_contra hne
        simp only [Bool.not_eq_false, beq_iff_eq] at hne
        rw [hne] at h4
        simp at h4
      rw [CppExtractor.firstFnParams.eq_def] at hp
      simp only [h1, h2, h3, h4, if_true, Bool.false_eq_true, if_false] at hp
      split at hp
      · rename_i d hd'
        rw [hd'] at hd
        injection hd with hd
        subst hd
        rw [CppExtractor._extract_declarator_info.eq_def] at hname ⊢
        simp only [h1, h2, h3, h4, hni1, hni2, hni3, Bool.or_self,
          Bool.false_or, Bool.or_false, if_true, Bool.false_eq_true, if_false]
          at hname ⊢
        rw [hd'] at hname ⊢
        exact ih p hp hname
      · rename_i hd'
        rw [hd'] at hd
        cases hd
  | case7 n src h1 h2 h3 h4 hd =>
      intro p hp hname
      rw [CppExtractor.firstFnParams.eq_def] at hp
      simp only [h1, h2, h3, h4, if_true, Bool.false_eq_true, if_false] at hp
      split at hp
      · rename_i d hd'
        rw [hd'] at hd
        cases hd
      · cases hp
  | case8 n src h1 h2 h3 h4 =>
      intro p hp hname
      rw [CppExtractor.firstFnParams.eq_def] at hp
      simp only [h1, h2, h3, h4, Bool.false_eq_true, if_false] at hp
      cases hp


theorem py_assign_inv (node : Node) (anc : List Node) (src : List Char)
    (v : VariableInfo)
    (h : v ∈ PythonExtractor._extract_assignment node anc src) :
    (v.class_name ≠ none ↔ v.scope = "class") := by
  rcases anc with _ | ⟨parent, rest⟩
  · simp [PythonExtractor._extract_assignment] at h
  rcases rest with _ | ⟨gp, rest2⟩
  · simp only [PythonExtractor._extract_assignment] at h
    split at h <;> simp at h
  by_cases hp : (parent.ty == "expression_statement") = true
  case neg => simp [PythonExtractor._extract_assignment, hp] at h
  simp only [PythonExtractor._extract_assignment, hp, if_true] at h
  by_cases hm : (gp.ty == "module") = true
  · simp only [hm, if_true] at h
    cases hl : childByFieldName node "left" with
    | none => simp [hl] at h
    | some left =>
        by_cases hid : (left.ty == "identifier") = true
        · simp only [hl, hid, if_true, List.mem_singleton] at h
          subst h
          simp
        · simp [hl, hid] at h
  · simp only [hm, Bool.false_eq_true, if_false] at h
    by_cases hb : (gp.ty == "block") = true
    case neg => simp [hb] at h
    simp only [hb, if_true] at h
    cases hcn : PythonExtractor._get_parent_class (parent :: gp :: rest2) src with
    | none => rw [hcn] at h; simp [pyTruthy] at h
    | some s =>
        rw [hcn] at h
        by_cases hs : s = ""
        · subst hs; simp [pyTruthy] at h
        · have hred : pyTruthy (some s) = true := by simp [pyTruthy, hs]
          rw [hred] at h
          simp only [if_true] at h
          cases hl : childByFieldName node "left" with
          | none => simp [hl] at h
          | some left =>
              by_cases hid : (left.ty == "identifier") = true
              · simp only [hl, hid, if_true, List.mem_singleton] at h
                subst h
                simp
              · simp [hl, hid] at h

theorem py_annassign_inv (node : Node) (anc : List Node) (src : List Char)
    (v : VariableInfo)
    (h : v ∈ PythonExtractor._extract_annotated_assignment node anc src) :
    (v.class_name ≠ none ↔ v.scope = "class") := by
  rcases anc with _ | ⟨parent, rest⟩
  · simp [PythonExtractor._extract_annotated_assignment] at h
  by_cases hpar : (parent.ty == "module" || parent.ty == "block") = true
  case neg => simp [PythonExtractor._extract_annotated_assignment, hpar] at h
  simp only [PythonExtractor._extract_annotated_assignment, hpar, if_true] at h
  by_cases hm : (parent.ty == "module") = true
  · simp only [hm, if_true] at h
    cases hl : childByFieldName node "name" with
    | none => simp [hl] at h
    | some nameNode =>
        by_cases hid : (nameNode.ty == "identifier") = true
        · simp only [hl, hid, if_true, List.mem_singleton] at h
          subst h
          simp
        · simp [hl, hid] at h
  · simp only [hm, Bool.false_eq_true, if_false] at h
    cases hcn : PythonExtractor._get_parent_class (parent :: rest) src with
    | none => rw [hcn] at h; simp [pyTruthy] at h
    | some s =>
        rw [hcn] at h
        by_cases hs : s = ""
        · subst hs; simp [pyTruthy] at h
        · have hred : pyTruthy (some s) = true := by simp [pyTruthy, hs]
          rw [hred] at h
          simp only [if_true] at h
          cases hl : childByFieldName node "name" with
          | none => simp [hl] at h
          | some nameNode =>
              by_cases hid : (nameNode.ty == "identifier") = true
              · simp only [hl, hid, if_true, List.mem_singleton] at h
                subst h
                simp
              · simp [hl, hid] at h

theorem c_decl_inv (node : Node) (src : List Char) (v : VariableInfo)
    (h : v ∈ CExtractor._extract_declaration node src) :
    v.scope = "global" ∧ v.class_name = none := by
  simp only [CExtractor._extract_declaration] at h
  split at h
  · simp at h
  · split at h
    · simp only [List.mem_singleton] at h
      subst h
      exact ⟨rfl, rfl⟩
    · simp at h

theorem cpp_decl_inv (node : Node) (src : List Char) (scope : String)
    (cn : Option String) (v : VariableInfo)
    (h : v ∈ CppExtractor._extract_declaration node src scope cn) :
    v.scope = scope ∧ v.class_name = cn := by
  simp only [CppExtractor._extract_declaration] at h
  split at h
  · simp at h
  · split at h
    · simp only [List.mem_singleton] at h
      subst h
      exact ⟨rfl, rfl⟩
    · simp at h

theorem cpp_field_inv (node : Node) (src : List Char) (cn : String)
    (v : VariableInfo)
    (h : v ∈ CppExtractor._extract_field node src cn) :
    v.scope = "class" ∧ v.class_name = some cn := by
  simp only [CppExtractor._extract_field] at h
  split at h
  · simp at h
  · split at h
    · simp only [List.mem_singleton] at h
      subst h
      exact ⟨rfl, rfl⟩
    · simp at h

theorem py_vars_inv (t : Node) (s : List Char) (v : VariableInfo)
    (hv : v ∈ PythonExtractor.extract_variables t s) :
    (v.class_name ≠ none ↔ v.scope = "class") := by
  simp only [PythonExtractor.extract_variables] at hv
  rcases List.mem_flatMap.mp hv with ⟨p, hp, hmem⟩
  by_cases h1 : (p.1.ty == "assignment") = true
  · rw [if_pos h1] at hmem
    exact py_assign_inv p.1 p.2 s v hmem
  · rw [if_neg (by simpa using h1)] at hmem
    by_cases h2 : (p.1.ty == "annotated_assignment") = true
    · rw [if_pos h2] at hmem
      exact py_annassign_inv p.1 p.2 s v hmem
    · rw [if_neg (by simpa using h2)] at hmem
      simp at hmem

theorem c_vars_inv (t : Node) (s : List Char) (v : VariableInfo)
    (hv : v ∈ CExtractor.extract_variables t s) :
    v.scope = "global" ∧ v.class_name = none := by
  simp only [CExtractor.extract_variables] at hv
  rcases List.mem_flatMap.mp hv with ⟨p, hp, hmem⟩
  by_cases h1 : (p.1.ty == "declaration") = true
  · rw [if_pos h1] at hmem
    rcases hanc : p.2 with _ | ⟨parent, rest⟩
    · rw [hanc] at hmem; simp at hmem
    · rw [hanc] at hmem
      have hmem' : v ∈ (if (parent.ty == "translation_unit") = true
          then CExtractor._extract_declaration p.1 s else []) := hmem
      by_cases h2 : (parent.ty == "translation_unit") = true
      · rw [if_pos h2] at hmem'
        exact c_decl_inv p.1 s v hmem'
      · rw [if_neg (by simpa using h2)] at hmem'
        simp at hmem'
  · rw [if_neg (by simpa using h1)] at hmem
    simp at hmem

theorem cpp_vars_inv (t : Node) (s : List Char) (v : VariableInfo)
    (hv : v ∈ CppExtractor.extract_variables t s) :
    (v.class_name ≠ none ↔ v.scope = "class") := by
  simp only [CppExtractor.extract_variables] at hv
  rcases List.mem_flatMap.mp hv with ⟨p, hp, hmem⟩
  by_cases h1 : (p.1.ty == "declaration") = true
  · rw [if_pos h1] at hmem
    rcases hanc : p.2 with _ | ⟨parent, rest⟩
    · rw [hanc] at hmem; simp at hmem
    · rw [hanc] at hmem
      have hmem' : v ∈ (if (parent.ty == "translation_unit") = true
          then CppExtractor._extract_declaration p.1 s "global" none else []) :=
        hmem
      by_cases h2 : (parent.ty == "translation_unit") = true
      · rw [if_pos h2] at hmem'
        have := cpp_decl_inv p.1 s "global" none v hmem'
        rw [this.1, this.2]
        simp
      · rw [if_neg (by simpa using h2)] at hmem'
        simp at hmem' 
  · rw [if_neg (by simpa using h1)] at hmem
    by_cases h2 : (p.1.ty == "field_declaration") = true
    · rw [if_pos h2] at hmem
      cases hcn : CppExtractor._get_parent_class p.2 s with
      | none => rw [hcn] at hmem; simp at hmem
      | some cn =>
          rw [hcn] at hmem
          have hmem' : v ∈ (if cn ≠ "" then CppExtractor._extract_field p.1 s cn
              else []) := hmem
          by_cases h3 : cn ≠ ""
          · rw [if_pos h3] at hmem'
            have := cpp_field_inv p.1 s cn v hmem'
            rw [this.1, this.2]
            simp
          · rw [if_neg h3] at hmem'
            simp at hmem' 
    · rw [if_neg (by simpa using h2)] at hmem
      simp at hmem

theorem cpp_field_emitted (t : Node) (s : List Char) (node : Node)
    (anc : List Node) (hmem : (node, anc) ∈ walkCtx t [])
    (hty : node.ty = "field_declaration") (cn : String)
    (hcn : CppExtractor._get_parent_class anc s = some cn) (hne : cn ≠ "")
    (v : VariableInfo) (hv : v ∈ CppExtractor._extract_field node s cn) :
    v ∈ CppExtractor.extract_variables t s := by
  simp only [CppExtractor.extract_variables]
  refine List.mem_flatMap.mpr ⟨(node, anc), hmem, ?_⟩
  have h1 : (node.ty == "declaration") = false := by simp [hty]
  have h2 : (node.ty == "field_declaration") = true := by simp [hty]
  rw [if_neg (by simp [h1]), if_pos h2, hcn]
  show v ∈ (if cn ≠ "" then CppExtractor._extract_field node s cn else [])
  rw [if_pos hne]
  exact hv

theorem py_calls_caller (t : Node) (s : List Char) (c : CallInfo)
    (hmem : c ∈ PythonExtractor.extract_calls t s) :
    ∃ n ∈ preorder t, n.ty = "call" ∧
      c.caller_function = ((PythonExtractor.funcRanges t s).find?
        (fun r => decide (r.1 ≤ n.startByte) && decide (n.startByte ≤ r.2.1))).map
          (fun r => r.2.2) ∧
      (c.caller_function = none ↔
        ∀ r ∈ PythonExtractor.funcRanges t s,
          ¬(r.1 ≤ n.startByte ∧ n.startByte ≤ r.2.1)) := by
  simp only [PythonExtractor.extract_calls] at hmem
  rcases List.mem_filterMap.mp hmem with ⟨n, hn, hf⟩
  by_cases hty : (n.ty == "call") = true
  case neg => rw [if_neg (by simpa using hty)] at hf; cases hf
  refine ⟨n, hn, by simpa using hty, ?_⟩
  rw [if_pos hty] at hf
  have hcall : c.caller_function =
      findCaller (PythonExtractor.funcRanges t s) n.startByte := by
    cases hfn : childByFieldName n "function" with
    | none => rw [hfn] at hf; cases hf
    | some fn =>
        rw [hfn] at hf
        rcases Option.map_eq_some'.mp hf with ⟨callee, hc1, hc2⟩
        rw [← hc2]
  constructor
  · rw [hcall, findCaller_eq_find?]
  · rw [hcall]
    exact findCaller_eq_none_iff _ _

theorem c_calls_caller (t : Node) (s : List Char) (c : CallInfo)
    (hmem : c ∈ CExtractor.extract_calls t s) :
    ∃ n ∈ preorder t, n.ty = "call_expression" ∧
      c.caller_function = ((CExtractor.funcRanges t s).find?
        (fun r => decide (r.1 ≤ n.startByte) && decide (n.startByte ≤ r.2.1))).map
          (fun r => r.2.2) ∧
      (c.caller_function = none ↔
        ∀ r ∈ CExtractor.funcRanges t s,
          ¬(r.1 ≤ n.startByte ∧ n.startByte ≤ r.2.1)) := by
  simp only [CExtractor.extract_calls] at hmem
  rcases List.mem_filterMap.mp hmem with ⟨n, hn, hf⟩
  by_cases hty : (n.ty == "call_expression") = true
  case neg => rw [if_neg (by simpa using hty)] at hf; cases hf
  refine ⟨n, hn, by simpa using hty, ?_⟩
  rw [if_pos hty] at hf
  have hcall : c.caller_function =
      findCaller (CExtractor.funcRanges t s) n.startByte := by
    cases hfn : childByFieldName n "function" with
    | none => rw [hfn] at hf; cases hf
    | some fn =>
        rw [hfn] at hf
        have hf' : (if (fn.ty == "identifier") = true then
            some { callee_name := getNodeText fn s, line := n.startRow + 1,
                   caller_function :=
                     findCaller (CExtractor.funcRanges t s) n.startByte }
            else none) = some c := hf
        by_cases hid : (fn.ty == "identifier") = true
        · rw [if_pos hid] at hf'
          injection hf' with hf'
          rw [← hf']
        · rw [if_neg (by simpa using hid)] at hf'
          cases hf' 
  constructor
  · rw [hcall, findCaller_eq_find?]
  · rw [hcall]
    exact findCaller_eq_none_iff _ _

theorem py_fn_lines (t : Node) (s : List Char) (hrow : rowsOk t)
    (f : FunctionInfo) (hf : f ∈ PythonExtractor.extract_functions t s) :
    f.line_start ≤ f.line_end := by
  simp only [PythonExtractor.extract_functions] at hf
  rcases List.mem_filterMap.mp hf with ⟨p, hp, hf'⟩
  by_cases hty : (p.1.ty == "function_definition") = true
  · rw [if_pos hty] at hf'
    injection hf' with hf'
    have hr := hrow p.1 (mem_walkCtx_fst hp)
    rw [← hf']
    simp only [PythonExtractor._extract_function]
    omega
  · rw [if_neg (by simpa using hty)] at hf'
    cases hf'

theorem py_class_lines (t : Node) (s : List Char) (hrow : rowsOk t)
    (k : ClassInfo) (hk : k ∈ PythonExtractor.extract_classes t s) :
    k.line_start ≤ k.line_end := by
  simp only [PythonExtractor.extract_classes] at hk
  rcases List.mem_filterMap.mp hk with ⟨n, hn, hk'⟩
  by_cases hty : (n.ty == "class_definition") = true
  · rw [if_pos hty] at hk'
    injection hk' with hk'
    have hr := hrow n hn
    rw [← hk']
    simp only [PythonExtractor._extract_class]
    omega
  · rw [if_neg (by simpa using hty)] at hk'
    cases hk'

theorem c_fn_lines (t : Node) (s : List Char) (hrow : rowsOk t)
    (f : FunctionInfo) (hf : f ∈ CExtractor.extract_functions t s) :
    f.line_start ≤ f.line_end := by
  simp only [CExtractor.extract_functions] at hf
  rcases List.mem_filterMap.mp hf with ⟨n, hn, hf'⟩
  by_cases hty : (n.ty == "function_definition") = true
  · rw [if_pos hty] at hf'
    have hr := hrow n hn
    simp only [CExtractor._extract_function] at hf'
    split at hf'
    · cases hf'
    · split at hf'
      · injection hf' with hf'
        rw [← hf']
        show n.startRow + 1 ≤ n.endRow + 1
        omega
      · cases hf'
  · rw [if_neg (by simpa using hty)] at hf'
    cases hf'

theorem c_struct_lines (t : Node) (s : List Char) (hrow : rowsOk t)
    (k : ClassInfo) (hk : k ∈ CExtractor.extract_classes t s) :
    k.line_start ≤ k.line_end := by
  simp only [CExtractor.extract_classes] at hk
  rcases List.mem_filterMap.mp hk with ⟨n, hn, hk'⟩
  by_cases hty : (n.ty == "struct_specifier") = true
  · rw [if_pos hty] at hk'
    have hr := hrow n hn
    simp only [CExtractor._extract_struct] at hk'
    split at hk'
    · cases hk'
    · injection hk' with hk'
      rw [← hk']
      by_cases hb : (childByFieldName n "body").isSome = true
      · simp only [hb, if_true]
        omega
      · simp only [hb, Bool.false_eq_true, if_false]
        omega
  · rw [if_neg (by simpa using hty)] at hk'
    cases hk'

theorem cpp_fn_lines (t : Node) (s : List Char) (hrow : rowsOk t)
    (f : FunctionInfo) (hf : f ∈ CppExtractor.extract_functions t s) :
    f.line_start ≤ f.line_end := by
  simp only [CppExtractor.extract_functions] at hf
  rcases List.mem_filterMap.mp hf with ⟨n, hn, hf'⟩
  by_cases hty : (n.ty == "function_definition") = true
  · rw [if_pos hty] at hf'
    have hr := hrow n hn
    simp only [CppExtractor._extract_function] at hf'
    split at hf'
    · cases hf'
    · split at hf'
      · injection hf' with hf'
        rw [← hf']
        show n.startRow + 1 ≤ n.endRow + 1
        omega
      · cases hf'
  · rw [if_neg (by simpa using hty)] at hf'
    cases hf'

theorem cpp_class_lines (t : Node) (s : List Char) (hrow : rowsOk t)
    (k : ClassInfo) (hk : k ∈ CppExtractor.extract_classes t s) :
    k.line_start ≤ k.line_end := by
  simp only [CppExtractor.extract_classes] at hk
  rcases List.mem_filterMap.mp hk with ⟨n, hn, hk'⟩
  by_cases hty : (n.ty == "class_specifier" || n.ty == "struct_specifier") = true
  · rw [if_pos hty] at hk'
    have hr := hrow n hn
    simp only [CppExtractor._extract_class] at hk'
    split at hk'
    · cases hk'
    · injection hk' with hk'
      rw [← hk']
      by_cases hb : (childByFieldName n "body").isSome = true
      · simp only [hb, if_true]
        omega
      · simp only [hb, Bool.false_eq_true, if_false]
        omega
  · rw [if_neg (by simpa using hty)] at hk'
    cases hk'

theorem c_struct_bodyless (n : Node) (s : List Char) (ci : ClassInfo)
    (hb : childByFieldName n "body" = none)
    (hc : CExtractor._extract_struct n s = some ci) :
    ci.line_end = ci.line_start := by
  simp only [CExtractor._extract_struct] at hc
  split at hc
  · cases hc
  · injection hc with hc
    rw [← hc]
    simp [hb]

theorem cpp_class_bodyless (n : Node) (s : List Char) (ci : ClassInfo)
    (hb : childByFieldName n "body" = none)
    (hc : CppExtractor._extract_class n s = some ci) :
    ci.line_end = ci.line_start := by
  simp only [CppExtractor._extract_class] at hc
  split at hc
  · cases hc
  · injection hc with hc
    rw [← hc]
    simp [hb]

/-!
### Claim theorems
-/


theorem eval_c_declInfo_idF :
    CExtractor._extract_declarator_info nCIdF srcCNestedFn = (some "f", "()") := by
  rw [CExtractor._extract_declarator_info.eq_def]
  simp only [(by decide : (nCIdF.ty == "function_declarator") = false),
    (by decide : (nCIdF.ty == "pointer_declarator") = false),
    (by decide : (nCIdF.ty == "identifier") = true),
    Bool.false_eq_true, if_false, if_true]
  rw [show getNodeText nCIdF srcCNestedFn = "f" from by decide]

theorem eval_c_declInfo_innerFn :
    CExtractor._extract_declarator_info nCInnerFnDecl srcCNestedFn =
      (some "f", "(int a)") := by
  rw [CExtractor._extract_declarator_info.eq_def]
  simp only [(by decide : (nCInnerFnDecl.ty == "function_declarator") = true),
    if_true,
    (by decide : childByFieldName nCInnerFnDecl "parameters" = some nCInnerParams),
    (by decide : getNodeText nCInnerParams srcCNestedFn = "(int a)")]
  split
  · rename_i decl heq
    rw [(by decide : childByFieldName nCInnerFnDecl "declarator" = some nCIdF)]
      at heq
    injection heq with heq
    subst heq
    rw [if_pos (by decide), show getNodeText nCIdF srcCNestedFn = "f" from by decide]
  · rename_i heq
    rw [(by decide : childByFieldName nCInnerFnDecl "declarator" = some nCIdF)]
      at heq
    cases heq

theorem eval_c_declInfo_ptr :
    CExtractor._extract_declarator_info nCPtrDecl srcCNestedFn =
      (some "f", "(int a)") := by
  rw [CExtractor._extract_declarator_info.eq_def]
  simp only [(by decide : (nCPtrDecl.ty == "function_declarator") = false),
    (by decide : (nCPtrDecl.ty == "pointer_declarator") = true),
    Bool.false_eq_true, if_false, if_true]
  split
  · rename_i decl heq
    rw [(by decide : childByFieldName nCPtrDecl "declarator" = some nCInnerFnDecl)]
      at heq
    injection heq with heq
    subst heq
    exact eval_c_declInfo_innerFn
  · rename_i heq
    rw [(by decide : childByFieldName nCPtrDecl "declarator" = some nCInnerFnDecl)]
      at heq
    cases heq

theorem eval_c_declInfo_paren :
    CExtractor._extract_declarator_info nCParenDecl srcCNestedFn =
      (some "f", "(int a)") := by
  rw [CExtractor._extract_declarator_info.eq_def]
  simp only [(by decide : (nCParenDecl.ty == "function_declarator") = false),
    (by decide : (nCParenDecl.ty == "pointer_declarator") = false),
    (by decide : (nCParenDecl.ty == "identifier") = false),
    (by decide : (nCParenDecl.ty == "parenthesized_declarator") = true),
    Bool.false_eq_true, if_false, if_true]
  split
  · rename_i child heq
    rw [(by decide : firstChildWhere nCParenDecl
        (fun c => !(c.ty == "(" || c.ty == ")")) = some nCPtrDecl)] at heq
    injection heq with heq
    subst heq
    exact eval_c_declInfo_ptr
  · rename_i heq
    rw [(by decide : firstChildWhere nCParenDecl
        (fun c => !(c.ty == "(" || c.ty == ")")) = some nCPtrDecl)] at heq
    cases heq

theorem eval_c_declInfo_nested :
    CExtractor._extract_declarator_info nCOuterFnDecl srcCNestedFn =
      (some "f", "(char)") := by
  rw [CExtractor._extract_declarator_info.eq_def]
  simp only [(by decide : (nCOuterFnDecl.ty == "function_declarator") = true),
    if_true,
    (by decide : childByFieldName nCOuterFnDecl "parameters" = some nCOuterParams),
    (by decide : getNodeText nCOuterParams srcCNestedFn = "(char)")]
  split
  · rename_i decl heq
    rw [(by decide : childByFieldName nCOuterFnDecl "declarator" = some nCParenDecl)]
      at heq
    injection heq with heq
    subst heq
    rw [if_neg (by decide), eval_c_declInfo_paren]
  · rename_i heq
    rw [(by decide : childByFieldName nCOuterFnDecl "declarator" = some nCParenDecl)]
      at heq
    cases heq

theorem eval_c_specInnermost_nested :
    CExtractor.specInnermostFnParams nCOuterFnDecl srcCNestedFn =
      some "(int a)" := by decide

theorem eval_c_declInfo_idFp :
    CExtractor._extract_declarator_info nCIdFp srcCFnPtrVar =
      (some "fp", "()") := by
  rw [CExtractor._extract_declarator_info.eq_def]
  simp only [(by decide : (nCIdFp.ty == "function_declarator") = false),
    (by decide : (nCIdFp.ty == "pointer_declarator") = false),
    (by decide : (nCIdFp.ty == "identifier") = true),
    Bool.false_eq_true, if_false, if_true]
  rw [show getNodeText nCIdFp srcCFnPtrVar = "fp" from by decide]

theorem eval_c_declInfo_fpPtr :
    CExtractor._extract_declarator_info nCFpPtrDecl srcCFnPtrVar =
      (some "fp", "()") := by
  rw [CExtractor._extract_declarator_info.eq_def]
  simp only [(by decide : (nCFpPtrDecl.ty == "function_declarator") = false),
    (by decide : (nCFpPtrDecl.ty == "pointer_declarator") = true),
    Bool.false_eq_true, if_false, if_true]
  split
  · rename_i d heq
    rw [(by decide : childByFieldName nCFpPtrDecl "declarator" = some nCIdFp)]
      at heq
    injection heq with heq
    subst heq
    exact eval_c_declInfo_idFp
  · rename_i heq
    rw [(by decide : childByFieldName nCFpPtrDecl "declarator" = some nCIdFp)]
      at heq
    cases heq

theorem eval_c_declInfo_fpParen :
    CExtractor._extract_declarator_info nCFpParenDecl srcCFnPtrVar =
      (some "fp", "()") := by
  rw [CExtractor._extract_declarator_info.eq_def]
  simp only [(by decide : (nCFpParenDecl.ty == "function_declarator") = false),
    (by decide : (nCFpParenDecl.ty == "pointer_declarator") = false),
    (by decide : (nCFpParenDecl.ty == "identifier") = false),
    (by decide : (nCFpParenDecl.ty == "parenthesized_declarator") = true),
    Bool.false_eq_true, if_false, if_true]
  split
  · rename_i ch heq
    rw [(by decide : firstChildWhere nCFpParenDecl
        (fun c => !(c.ty == "(" || c.ty == ")")) = some nCFpPtrDecl)] at heq
    injection heq with heq
    subst heq
    exact eval_c_declInfo_fpPtr
  · rename_i heq
    rw [(by decide : firstChildWhere nCFpParenDecl
        (fun c => !(c.ty == "(" || c.ty == ")")) = some nCFpPtrDecl)] at heq
    cases heq

theorem eval_c_declInfo_fp :
    CExtractor._extract_declarator_info nCFpFnDecl srcCFnPtrVar =
      (some "fp", "(void)") := by
  rw [CExtractor._extract_declarator_info.eq_def]
  simp only [(by decide : (nCFpFnDecl.ty == "function_declarator") = true),
    if_true,
    (by decide : childByFieldName nCFpFnDecl "parameters" = some nCFpParams),
    (by decide : getNodeText nCFpParams srcCFnPtrVar = "(void)")]
  split
  · rename_i d heq
    rw [(by decide : childByFieldName nCFpFnDecl "declarator" = some nCFpParenDecl)]
      at heq
    injection heq with heq
    subst heq
    rw [if_neg (by decide), eval_c_declInfo_fpParen]
  · rename_i heq
    rw [(by decide : childByFieldName nCFpFnDecl "declarator" = some nCFpParenDecl)]
      at heq
    cases heq

theorem eval_c_firstFnParams_fp :
    CExtractor.firstFnParams nCFpFnDecl srcCFnPtrVar = some "(void)" := by
  rw [CExtractor.firstFnParams.eq_def]
  simp only [(by decide : (nCFpFnDecl.ty == "function_declarator") = true),
    if_true,
    (by decide : childByFieldName nCFpFnDecl "parameters" = some nCFpParams),
    (by decide : getNodeText nCFpParams srcCFnPtrVar = "(void)")]

theorem eval_cpp_declInfo_fooFn :
    CppExtractor._extract_declarator_info nCppFooFnDecl srcCppPtrFoo =
      (some "foo", "(int a, char b)") := by
  rw [CppExtractor._extract_declarator_info.eq_def]
  simp only [(by decide : (nCppFooFnDecl.ty == "function_declarator") = true),
    if_true,
    (by decide : childByFieldName nCppFooFnDecl "parameters" = some nCppFooParams),
    (by decide : getNodeText nCppFooParams srcCppPtrFoo = "(int a, char b)")]
  split
  · rename_i d heq
    rw [(by decide : childByFieldName nCppFooFnDecl "declarator" = some nCppIdFoo)]
      at heq
    injection heq with heq
    subst heq
    rw [if_pos (by decide),
      show getNodeText nCppIdFoo srcCppPtrFoo = "foo" from by decide]
  · rename_i heq
    rw [(by decide : childByFieldName nCppFooFnDecl "declarator" = some nCppIdFoo)]
      at heq
    cases heq

theorem eval_cpp_declInfo_foo :
    CppExtractor._extract_declarator_info nCppFooPtr srcCppPtrFoo =
      (some "foo", "(int a, char b)") := by
  rw [CppExtractor._extract_declarator_info.eq_def]
  simp only [(by decide : (nCppFooPtr.ty == "function_declarator") = false),
    (by decide : (nCppFooPtr.ty == "pointer_declarator") = true),
    Bool.false_eq_true, if_false, if_true]
  split
  · rename_i d heq
    rw [(by decide : childByFieldName nCppFooPtr "declarator" = some nCppFooFnDecl)]
      at heq
    injection heq with heq
    subst heq
    exact eval_cpp_declInfo_fooFn
  · rename_i heq
    rw [(by decide : childByFieldName nCppFooPtr "declarator" = some nCppFooFnDecl)]
      at heq
    cases heq

theorem eval_cpp_firstFnParams_foo :
    CppExtractor.firstFnParams nCppFooPtr srcCppPtrFoo =
      some "(int a, char b)" := by
  rw [CppExtractor.firstFnParams.eq_def]
  simp only [(by decide : (nCppFooPtr.ty == "function_declarator") = false),
    (by decide : (nCppFooPtr.ty == "pointer_declarator") = true),
    Bool.false_eq_true, if_false, if_true]
  split
  · rename_i d heq
    rw [(by decide : childByFieldName nCppFooPtr "declarator" = some nCppFooFnDecl)]
      at heq
    injection heq with heq
    subst heq
    rw [CppExtractor.firstFnParams.eq_def]
    simp only [(by decide : (nCppFooFnDecl.ty == "function_declarator") = true),
      if_true,
      (by decide : childByFieldName nCppFooFnDecl "parameters" = some nCppFooParams),
      (by decide : getNodeText nCppFooParams srcCppPtrFoo = "(int a, char b)")]
  · rename_i heq
    rw [(by decide : childByFieldName nCppFooPtr "declarator" = some nCppFooFnDecl)]
      at heq
    cases heq

theorem eval_c_declInfo_bad :
    CExtractor._extract_declarator_info nCBadDecl [] = (none, "()") := by
  rw [CExtractor._extract_declarator_info.eq_def]
  simp [nCBadDecl, Node.ty]

theorem eval_cpp_declInfo_bad :
    CppExtractor._extract_declarator_info nCBadDecl [] = (none, "()") := by
  rw [CppExtractor._extract_declarator_info.eq_def]
  simp [nCBadDecl, Node.ty]

theorem eval_c_getVarName_fp :
    CExtractor._get_var_name nCFpFnDecl srcCFnPtrVar = none := by
  rw [CExtractor._get_var_name.eq_def]
  simp [nCFpFnDecl, Node.ty]

theorem eval_c_vars_fnptr :
    CExtractor.extract_variables treeCFnPtrVar srcCFnPtrVar = [] := by
  have hd : CExtractor._extract_declaration nCFpDecl srcCFnPtrVar = [] := by
    simp only [CExtractor._extract_declaration,
      show childByFieldName nCFpDecl "declarator" = some nCFpFnDecl from by decide]
    rw [eval_c_getVarName_fp]
    rfl
  simp only [CExtractor.extract_variables]
  rw [show walkCtx treeCFnPtrVar [] =
    [(treeCFnPtrVar, []), (nCFpDecl, [treeCFnPtrVar]),
     (nCFpType, [nCFpDecl, treeCFnPtrVar]), (nCFpFnDecl, [nCFpDecl, treeCFnPtrVar]),
     (nCFpParenDecl, [nCFpFnDecl, nCFpDecl, treeCFnPtrVar]),
     (nCFpLParen, [nCFpParenDecl, nCFpFnDecl, nCFpDecl, treeCFnPtrVar]),
     (nCFpPtrDecl, [nCFpParenDecl, nCFpFnDecl, nCFpDecl, treeCFnPtrVar]),
     (nCFpStar, [nCFpPtrDecl, nCFpParenDecl, nCFpFnDecl, nCFpDecl, treeCFnPtrVar]),
     (nCIdFp, [nCFpPtrDecl, nCFpParenDecl, nCFpFnDecl, nCFpDecl, treeCFnPtrVar]),
     (nCFpRParen, [nCFpParenDecl, nCFpFnDecl, nCFpDecl, treeCFnPtrVar]),
     (nCFpParams, [nCFpFnDecl, nCFpDecl, treeCFnPtrVar])] from by decide]
  simp only [List.flatMap_cons, List.flatMap_nil]
  rw [hd]
  decide

theorem eval_c_getVarName_x :
    CExtractor._get_var_name nCGlobId srcCGlobal = some "x" := by
  rw [CExtractor._get_var_name.eq_def]
  simp [nCGlobId, Node.ty, getNodeText, Node.startByte, Node.endByte, srcCGlobal]
  rfl

theorem eval_c_vars_global :
    CExtractor.extract_variables treeCGlobal srcCGlobal =
      [{ name := "x", line := 1, scope := "global", class_name := none,
         type_hint := some "int" }] := by
  have hd : CExtractor._extract_declaration nCGlobDecl srcCGlobal =
      [{ name := "x", line := 1, scope := "global", class_name := none,
         type_hint := some "int" }] := by
    simp only [CExtractor._extract_declaration,
      show childByFieldName nCGlobDecl "declarator" = some nCGlobId from by decide]
    rw [eval_c_getVarName_x]
    decide
  simp only [CExtractor.extract_variables]
  rw [show walkCtx treeCGlobal [] =
    [(treeCGlobal, []), (nCGlobDecl, [treeCGlobal]),
     (nCGlobType, [nCGlobDecl, treeCGlobal]),
     (nCGlobId, [nCGlobDecl, treeCGlobal])] from by decide]
  simp only [List.flatMap_cons, List.flatMap_nil]
  rw [hd]
  decide

theorem eval_cpp_getVarName_y :
    CppExtractor._get_var_name nCppIdY srcCppClassField = some "y" := by
  rw [CppExtractor._get_var_name.eq_def]
  simp [nCppIdY, Node.ty, getNodeText, Node.startByte, Node.endByte,
    srcCppClassField]
  rfl

theorem eval_cpp_field_y :
    CppExtractor._extract_field nCppFieldDecl srcCppClassField "W" =
      [{ name := "y", line := 1, scope := "class", class_name := some "W",
         type_hint := some "int" }] := by
  simp only [CppExtractor._extract_field,
    show childByFieldName nCppFieldDecl "declarator" = some nCppIdY from by decide]
  rw [eval_cpp_getVarName_y]
  decide

theorem eval_c_declInfo_f :
    CExtractor._extract_declarator_info nCFDeclr srcCCalls =
      (some "f", "()") := by
  rw [CExtractor._extract_declarator_info.eq_def]
  simp only [(by decide : (nCFDeclr.ty == "function_declarator") = true),
    if_true,
    (by decide : childByFieldName nCFDeclr "parameters" = some nCFParams),
    (by decide : getNodeText nCFParams srcCCalls = "()")]
  split
  · rename_i d heq
    rw [(by decide : childByFieldName nCFDeclr "declarator" = some nCIdFnF)]
      at heq
    injection heq with heq
    subst heq
    rw [if_pos (by decide),
      show getNodeText nCIdFnF srcCCalls = "f" from by decide]
  · rename_i heq
    exact absurd heq (by decide)

theorem eval_c_funcRanges_calls :
    CExtractor.funcRanges treeCCalls srcCCalls = [(0, 17, "f")] := by
  simp only [CExtractor.funcRanges]
  rw [show preorder treeCCalls =
    [treeCCalls, nCFnDefF, nCVoid, nCFDeclr, nCIdFnF, nCFParams, nCFBody,
     nCGStmt, nCGCall, nCIdG2, nCGArgs] from by decide]
  simp only [List.filterMap_cons, List.filterMap_nil,
    show childByFieldName nCFnDefF "declarator" = some nCFDeclr from by decide,
    eval_c_declInfo_f]
  decide

theorem eval_c_calls :
    CExtractor.extract_calls treeCCalls srcCCalls =
      [{ callee_name := "g", line := 1, caller_function := some "f" }] := by
  simp only [CExtractor.extract_calls]
  rw [eval_c_funcRanges_calls]
  decide

/-- Claim C1 (counterexample): a Python `function_definition` node with no
name field is NOT skipped — `extract_functions` emits a FunctionInfo whose
name is the placeholder `"<unknown>"`, contradicting the claim that no
record with a sentinel or placeholder name is ever emitted. -/
theorem claim_C1_counterexample :
    PythonExtractor.extract_functions treePyAnonFn [] =
      [{ name := "<unknown>", line_start := 1, line_end := 1,
         signature := "def <unknown>()", class_name := none,
         docstring := none }] := by decide

/-- Claim C1 as amended: the C and C++ extractors skip a function
definition whose declarator is missing or whose name resolution fails
(no FunctionInfo is emitted); the Python extractor never skips — when the
name field is missing it emits a FunctionInfo with placeholder name
`"<unknown>"`. -/
theorem claim_C1 :
    (∀ (node : Node) (src : List Char),
        childByFieldName node "declarator" = none →
        CExtractor._extract_function node src = none) ∧
    (∀ (node d : Node) (src : List Char),
        childByFieldName node "declarator" = some d →
        pyTruthy (CExtractor._extract_declarator_info d src).1 = false →
        CExtractor._extract_function node src = none) ∧
    (∀ (node : Node) (src : List Char),
        childByFieldName node "declarator" = none →
        CppExtractor._extract_function node src = none) ∧
    (∀ (node d : Node) (src : List Char),
        childByFieldName node "declarator" = some d →
        pyTruthy (CppExtractor._extract_declarator_info d src).1 = false →
        CppExtractor._extract_function node src = none) ∧
    (∀ (node : Node) (anc : List Node) (src : List Char),
        childByFieldName node "name" = none →
        (PythonExtractor._extract_function node anc src).name = "<unknown>") := by
  refine ⟨?_, ?_, ?_, ?_, ?_⟩
  · intro node src h
    simp only [CExtractor._extract_function]
    split
    · rfl
    · rename_i d heq
      rw [h] at heq
      cases heq
  · intro node d src hd hfail
    simp only [CExtractor._extract_function]
    split
    · rfl
    · rename_i declarator heq
      rw [hd] at heq
      injection heq with heq
      subst heq
      simp [hfail]
  · intro node src h
    simp only [CppExtractor._extract_function]
    split
    · rfl
    · rename_i d heq
      rw [h] at heq
      cases heq
  · intro node d src hd hfail
    simp only [CppExtractor._extract_function]
    split
    · rfl
    · rename_i declarator heq
      rw [hd] at heq
      injection heq with heq
      subst heq
      simp [hfail]
  · intro node anc src h
    simp [PythonExtractor._extract_function, h]

/-- Witness for the amended C1 at concrete nodes. -/
theorem claim_C1_witness :
    CExtractor._extract_function nCNoDeclFnDef [] = none ∧
    CExtractor._extract_function nCBadFnDef [] = none ∧
    CppExtractor._extract_function nCNoDeclFnDef [] = none ∧
    CppExtractor._extract_function nCBadFnDef [] = none ∧
    (PythonExtractor._extract_function nPyAnonFn [] []).name = "<unknown>" :=
  ⟨claim_C1.1 nCNoDeclFnDef [] (by decide),
   claim_C1.2.1 nCBadFnDef nCBadDecl [] (by decide)
     (by rw [eval_c_declInfo_bad]; rfl),
   claim_C1.2.2.1 nCNoDeclFnDef [] (by decide),
   claim_C1.2.2.2.1 nCBadFnDef nCBadDecl [] (by decide)
     (by rw [eval_cpp_declInfo_bad]; rfl),
   claim_C1.2.2.2.2 nPyAnonFn [] [] (by decide)⟩

/-- Claim C2 (code bug): the claim says an assignment inside any function
body — including a method body — yields no VariableInfo, and the code's
own comment says so too; but at the failing input
`class C:  def m(self):  x = 5` the extractor emits a class-scoped
VariableInfo for the method-local `x`, because `_get_parent_class` walks
all ancestors and finds `C`. -/
theorem claim_C2 :
    PythonExtractor.extract_variables treePyMethodAssign srcPyMethodAssign =
      [{ name := "x", line := 3, scope := "class", class_name := some "C",
         type_hint := none }] := by decide

/-- Claim C3: every CallInfo emitted by `extract_calls` (Python and C)
takes `caller_function` from the FIRST range of the pre-order phase-1
table whose `start ≤ call-start-byte ≤ end`, and `caller_function` is
`None` exactly when no range contains the call's start byte. -/
theorem claim_C3 (t : Node) (s : List Char) (c : CallInfo) :
    (c ∈ PythonExtractor.extract_calls t s →
      ∃ n ∈ preorder t, n.ty = "call" ∧
        c.caller_function =
          ((PythonExtractor.funcRanges t s).find?
            (fun r => decide (r.1 ≤ n.startByte) &&
              decide (n.startByte ≤ r.2.1))).map (fun r => r.2.2) ∧
        (c.caller_function = none ↔
          ∀ r ∈ PythonExtractor.funcRanges t s,
            ¬(r.1 ≤ n.startByte ∧ n.startByte ≤ r.2.1))) ∧
    (c ∈ CExtractor.extract_calls t s →
      ∃ n ∈ preorder t, n.ty = "call_expression" ∧
        c.caller_function =
          ((CExtractor.funcRanges t s).find?
            (fun r => decide (r.1 ≤ n.startByte) &&
              decide (n.startByte ≤ r.2.1))).map (fun r => r.2.2) ∧
        (c.caller_function = none ↔
          ∀ r ∈ CExtractor.funcRanges t s,
            ¬(r.1 ≤ n.startByte ∧ n.startByte ≤ r.2.1))) :=
  ⟨py_calls_caller t s c, c_calls_caller t s c⟩

/-- Witness for C3: a module-level Python call resolves to no caller, and
a call inside a C function body resolves to that function. -/
theorem claim_C3_witness :
    (∃ n ∈ preorder treePyCalls, n.ty = "call" ∧
      (CallInfo.mk "k" 3 none).caller_function =
        ((PythonExtractor.funcRanges treePyCalls srcPyCalls).find?
          (fun r => decide (r.1 ≤ n.startByte) &&
            decide (n.startByte ≤ r.2.1))).map (fun r => r.2.2) ∧
      ((CallInfo.mk "k" 3 none).caller_function = none ↔
        ∀ r ∈ PythonExtractor.funcRanges treePyCalls srcPyCalls,
          ¬(r.1 ≤ n.startByte ∧ n.startByte ≤ r.2.1))) ∧
    (∃ n ∈ preorder treeCCalls, n.ty = "call_expression" ∧
      (CallInfo.mk "g" 1 (some "f")).caller_function =
        ((CExtractor.funcRanges treeCCalls srcCCalls).find?
          (fun r => decide (r.1 ≤ n.startByte) &&
            decide (n.startByte ≤ r.2.1))).map (fun r => r.2.2) ∧
      ((CallInfo.mk "g" 1 (some "f")).caller_function = none ↔
        ∀ r ∈ CExtractor.funcRanges treeCCalls srcCCalls,
          ¬(r.1 ≤ n.startByte ∧ n.startByte ≤ r.2.1))) :=
  ⟨(claim_C3 treePyCalls srcPyCalls (CallInfo.mk "k" 3 none)).1 (by decide),
   (claim_C3 treeCCalls srcCCalls (CallInfo.mk "g" 1 (some "f"))).2
     (by rw [eval_c_calls]; exact List.mem_singleton_self _)⟩

/-- Claim C4 (counterexample): on the declarator of
`int (*f(int a))(char)` — two nested function_declarators — the resolver
returns the OUTERMOST function_declarator's parameter list `"(char)"`,
not the innermost one `"(int a)"` that the claim requires. -/
theorem claim_C4_counterexample :
    CExtractor._extract_declarator_info nCOuterFnDecl srcCNestedFn =
      (some "f", "(char)") ∧
    CExtractor.specInnermostFnParams nCOuterFnDecl srcCNestedFn =
      some "(int a)" ∧
    ("(char)" : String) ≠ "(int a)" :=
  ⟨eval_c_declInfo_nested, eval_c_specInnermost_nested, by decide⟩

/-- Claim C4 as amended: when name resolution succeeds, the declarator
resolver returns the parameter-list text of the FIRST function_declarator
met while unwrapping pointer/reference/parenthesized wrappers (the
outermost one in the tree — parameters of deeper function_declarators are
discarded), and it fails with `(none, "()")` on any unrecognized
declarator node type. -/
theorem claim_C4 :
    (∀ (n : Node) (src : List Char) (p : String),
        CExtractor.firstFnParams n src = some p →
        (CExtractor._extract_declarator_info n src).1.isSome = true →
        (CExtractor._extract_declarator_info n src).2 = p) ∧
    (∀ (n : Node) (src : List Char) (p : String),
        CppExtractor.firstFnParams n src = some p →
        (CppExtractor._extract_declarator_info n src).1.isSome = true →
        (CppExtractor._extract_declarator_info n src).2 = p) ∧
    (∀ (n : Node) (src : List Char),
        n.ty ≠ "function_declarator" → n.ty ≠ "pointer_declarator" →
        n.ty ≠ "identifier" → n.ty ≠ "parenthesized_declarator" →
        CExtractor._extract_declarator_info n src = (none, "()")) ∧
    (∀ (n : Node) (src : List Char),
        n.ty ≠ "function_declarator" → n.ty ≠ "pointer_declarator" →
        n.ty ≠ "reference_declarator" → n.ty ≠ "identifier" →
        n.ty ≠ "qualified_identifier" → n.ty ≠ "field_identifier" →
        n.ty ≠ "parenthesized_declarator" →
        CppExtractor._extract_declarator_info n src = (none, "()")) := by
  refine ⟨fun n src p => c_first_params n src p,
          fun n src p => cpp_first_params n src p, ?_, ?_⟩
  · intro n src h1 h2 h3 h4
    rw [CExtractor._extract_declarator_info.eq_def]
    simp [show (n.ty == "function_declarator") = false by simpa using h1,
      show (n.ty == "pointer_declarator") = false by simpa using h2,
      show (n.ty == "identifier") = false by simpa using h3,
      show (n.ty == "parenthesized_declarator") = false by simpa using h4]
  · intro n src h1 h2 h3 h4 h5 h6 h7
    rw [CppExtractor._extract_declarator_info.eq_def]
    simp [show (n.ty == "function_declarator") = false by simpa using h1,
      show (n.ty == "pointer_declarator") = false by simpa using h2,
      show (n.ty == "reference_declarator") = false by simpa using h3,
      show (n.ty == "identifier") = false by simpa using h4,
      show (n.ty == "qualified_identifier") = false by simpa using h5,
      show (n.ty == "field_identifier") = false by simpa using h6,
      show (n.ty == "parenthesized_declarator") = false by simpa using h7]

/-- Witness for the amended C4 at concrete declarators. -/
theorem claim_C4_witness :
    (CExtractor._extract_declarator_info nCFpFnDecl srcCFnPtrVar).2 =
      "(void)" ∧
    (CppExtractor._extract_declarator_info nCppFooPtr srcCppPtrFoo).2 =
      "(int a, char b)" ∧
    CExtractor._extract_declarator_info nCBadDecl [] = (none, "()") ∧
    CppExtractor._extract_declarator_info nCBadDecl [] = (none, "()") :=
  ⟨claim_C4.1 nCFpFnDecl srcCFnPtrVar "(void)" eval_c_firstFnParams_fp
     (by rw [eval_c_declInfo_fp]; rfl),
   claim_C4.2.1 nCppFooPtr srcCppPtrFoo "(int a, char b)"
     eval_cpp_firstFnParams_foo (by rw [eval_cpp_declInfo_foo]; rfl),
   claim_C4.2.2.1 nCBadDecl [] (by decide) (by decide) (by decide) (by decide),
   claim_C4.2.2.2 nCBadDecl [] (by decide) (by decide) (by decide) (by decide)
     (by decide) (by decide) (by decide)⟩

/-- Claim C5 (counterexample): in a body whose first statement is the call
`foo()` and whose second statement is the string `"doc"`, the docstring
scan does not stop at the non-string first statement: it returns
`some "doc"`, while the claim (first non-comment statement only) requires
`None`. -/
theorem claim_C5_counterexample :
    PythonExtractor._extract_docstring (some nPyLateBody) srcPyLateString =
      some "doc" ∧
    PythonExtractor.specFirstStmtDocstring nPyLateBody.children
      srcPyLateString = none := by decide

/-- Claim C5 as amended: a missing body yields no docstring; a docstring
`d` is returned exactly when some child of the body is a bare
string-literal expression statement with stripped value `d` and every
earlier child is either a comment or an expression statement that is not
a recognized bare string literal (the scan skips over those; any other
statement stops it). -/
theorem claim_C5 :
    (∀ src : List Char, PythonExtractor._extract_docstring none src = none) ∧
    (∀ (body : Node) (src : List Char) (d : String),
        PythonExtractor._extract_docstring (some body) src = some d ↔
          ∃ pre p post, body.children = pre ++ p :: post ∧
            PythonExtractor.stmtStringValue p.2 src = some d ∧
            ∀ q ∈ pre, PythonExtractor.scanSkips q.2 src = true) :=
  ⟨fun _ => rfl,
   fun body src d => PythonExtractor.docstringScan_eq_some_iff
     body.children src d⟩

/-- Witness for C5 at a concrete body. -/
theorem claim_C5_witness :
    PythonExtractor._extract_docstring none srcPyLateString = none ∧
    (PythonExtractor._extract_docstring (some nPyLateBody) srcPyLateString =
        some "doc" ↔
      ∃ pre p post, nPyLateBody.children = pre ++ p :: post ∧
        PythonExtractor.stmtStringValue p.2 srcPyLateString = some "doc" ∧
        ∀ q ∈ pre, PythonExtractor.scanSkips q.2 srcPyLateString = true) :=
  ⟨claim_C5.1 srcPyLateString,
   claim_C5.2 nPyLateBody srcPyLateString "doc"⟩

/-- Claim C6 (counterexample): for the global declaration
`int (*fp)(void);` the C extractor does NOT recover the name `fp`:
`_get_var_name` has no case for `function_declarator`, so the declaration
is skipped and `extract_variables` emits nothing. -/
theorem claim_C6_counterexample :
    CExtractor._get_var_name nCFpFnDecl srcCFnPtrVar = none ∧
    CExtractor.extract_variables treeCFnPtrVar srcCFnPtrVar = [] :=
  ⟨eval_c_getVarName_fp, eval_c_vars_fnptr⟩

/-- Claim C6 as amended: `_get_var_name` yields no name on a
`function_declarator` node, so a declaration whose declarator is a
function_declarator (e.g. the pointer-to-function shape `int (*fp)(void)`)
is skipped entirely — no VariableInfo is emitted for it. -/
theorem claim_C6 :
    (∀ (n : Node) (src : List Char), n.ty = "function_declarator" →
        CExtractor._get_var_name n src = none) ∧
    (∀ (node d : Node) (src : List Char),
        childByFieldName node "declarator" = some d →
        d.ty = "function_declarator" →
        CExtractor._extract_declaration node src = []) := by
  have hfn : ∀ (n : Node) (src : List Char), n.ty = "function_declarator" →
      CExtractor._get_var_name n src = none := by
    intro n src h
    rw [CExtractor._get_var_name.eq_def]
    simp [h]
  refine ⟨hfn, ?_⟩
  intro node d src hd hty
  simp only [CExtractor._extract_declaration]
  split
  · rfl
  · rename_i declarator heq
    rw [hd] at heq
    injection heq with heq
    subst heq
    rw [hfn d src hty]
    rfl

/-- Witness for the amended C6 at the `int (*fp)(void);` declaration. -/
theorem claim_C6_witness :
    CExtractor._get_var_name nCFpFnDecl srcCFnPtrVar = none ∧
    CExtractor._extract_declaration nCFpDecl srcCFnPtrVar = [] :=
  ⟨claim_C6.1 nCFpFnDecl srcCFnPtrVar rfl,
   claim_C6.2 nCFpDecl nCFpFnDecl srcCFnPtrVar (by decide) rfl⟩

/-- Claim C7 (counterexample): the C extractor emits NO class-scoped
variable for the explicit field declaration in `struct S { int x; };` —
its `extract_variables` only handles `declaration` nodes under the
translation unit, never `field_declaration`. -/
theorem claim_C7_counterexample :
    CExtractor.extract_variables treeCStructField srcCStructField = [] ∧
    nCFieldDecl ∈ preorder treeCStructField ∧
    nCFieldDecl.ty = "field_declaration" := by decide

/-- Claim C7 as amended: only the C++ extractor emits class-scoped
variables for explicit field declarations (resolved by the ancestor-walk
scope resolver, when the class name and the declarator name are
recoverable); the C extractor emits only global-scope variables. -/
theorem claim_C7 :
    (∀ (t : Node) (s : List Char) (v : VariableInfo),
        v ∈ CExtractor.extract_variables t s →
        v.scope = "global" ∧ v.class_name = none) ∧
    (∀ (t : Node) (s : List Char) (node : Node) (anc : List Node),
        (node, anc) ∈ walkCtx t [] → node.ty = "field_declaration" →
        ∀ cn : String, CppExtractor._get_parent_class anc s = some cn →
        cn ≠ "" → ∀ v ∈ CppExtractor._extract_field node s cn,
        v ∈ CppExtractor.extract_variables t s) :=
  ⟨fun t s v hv => c_vars_inv t s v hv,
   fun t s node anc hm hty cn hcn hne v hv =>
     cpp_field_emitted t s node anc hm hty cn hcn hne v hv⟩

/-- Witness for the amended C7: a C global is global-scoped, and the C++
field `y` of `class W` is emitted class-scoped. -/
theorem claim_C7_witness :
    ((VariableInfo.mk "x" 1 "global" none (some "int")).scope = "global" ∧
      (VariableInfo.mk "x" 1 "global" none (some "int")).class_name = none) ∧
    VariableInfo.mk "y" 1 "class" (some "W") (some "int") ∈
      CppExtractor.extract_variables treeCppClassField srcCppClassField :=
  ⟨claim_C7.1 treeCGlobal srcCGlobal _
     (by rw [eval_c_vars_global]; exact List.mem_singleton_self _),
   claim_C7.2 treeCppClassField srcCppClassField nCppFieldDecl
     [nCppFieldList, nCppClassSpec, treeCppClassField] (by decide) rfl
     "W" (by decide) (by decide) _
     (by rw [eval_cpp_field_y]; exact List.mem_singleton_self _)⟩

/-- Claim C8: for every VariableInfo emitted by any of the three
extractors, `class_name` is set exactly when `scope = "class"`. -/
theorem claim_C8 (t : Node) (s : List Char) :
    (∀ v ∈ PythonExtractor.extract_variables t s,
        (v.class_name ≠ none ↔ v.scope = "class")) ∧
    (∀ v ∈ CExtractor.extract_variables t s,
        (v.class_name ≠ none ↔ v.scope = "class")) ∧
    (∀ v ∈ CppExtractor.extract_variables t s,
        (v.class_name ≠ none ↔ v.scope = "class")) :=
  ⟨fun v hv => py_vars_inv t s v hv,
   fun v hv => by
     have h := c_vars_inv t s v hv
     rw [h.1, h.2]
     simp,
   fun v hv => cpp_vars_inv t s v hv⟩

/-- Witness for C8 at a concrete Python class variable. -/
theorem claim_C8_witness :
    (VariableInfo.mk "x" 3 "class" (some "C") none).class_name ≠ none ↔
      (VariableInfo.mk "x" 3 "class" (some "C") none).scope = "class" :=
  (claim_C8 treePyMethodAssign srcPyMethodAssign).1 _ (by decide)

/-- Claim C9: extraction is deterministic — the stateful `walk_tree`
cursor loop, restarted from a fresh cursor, always produces the structural
pre-order sequence, and each of the five extraction operations of each
extractor yields identical entity lists when run twice on the same
(tree, source) pair. -/
theorem claim_C9 (t : Node) (s : List Char) :
    walk_tree_cursor t = preorder t ∧
    (PythonExtractor.extract_functions t s = PythonExtractor.extract_functions t s ∧
     PythonExtractor.extract_classes t s = PythonExtractor.extract_classes t s ∧
     PythonExtractor.extract_imports t s = PythonExtractor.extract_imports t s ∧
     PythonExtractor.extract_variables t s = PythonExtractor.extract_variables t s ∧
     PythonExtractor.extract_calls t s = PythonExtractor.extract_calls t s) ∧
    (CExtractor.extract_functions t s = CExtractor.extract_functions t s ∧
     CExtractor.extract_classes t s = CExtractor.extract_classes t s ∧
     CExtractor.extract_imports t s = CExtractor.extract_imports t s ∧
     CExtractor.extract_variables t s = CExtractor.extract_variables t s ∧
     CExtractor.extract_calls t s = CExtractor.extract_calls t s) ∧
    (CppExtractor.extract_functions t s = CppExtractor.extract_functions t s ∧
     CppExtractor.extract_classes t s = CppExtractor.extract_classes t s ∧
     CppExtractor.extract_imports t s = CppExtractor.extract_imports t s ∧
     CppExtractor.extract_variables t s = CppExtractor.extract_variables t s ∧
     CppExtractor.extract_calls t s = CppExtractor.extract_calls t s) :=
  ⟨walk_tree_cursor_eq t,
   ⟨rfl, rfl, rfl, rfl, rfl⟩, ⟨rfl, rfl, rfl, rfl, rfl⟩,
   ⟨rfl, rfl, rfl, rfl, rfl⟩⟩

/-- Claim C10: on any tree whose nodes have `startRow ≤ endRow`, every
FunctionInfo and ClassInfo of all three extractors satisfies
`line_start ≤ line_end`; a named C/C++ struct/class without a body gets
`line_end = line_start`. -/
theorem claim_C10 (t : Node) (s : List Char) (hrow : rowsOk t) :
    (∀ f ∈ PythonExtractor.extract_functions t s, f.line_start ≤ f.line_end) ∧
    (∀ k ∈ PythonExtractor.extract_classes t s, k.line_start ≤ k.line_end) ∧
    (∀ f ∈ CExtractor.extract_functions t s, f.line_start ≤ f.line_end) ∧
    (∀ k ∈ CExtractor.extract_classes t s, k.line_start ≤ k.line_end) ∧
    (∀ f ∈ CppExtractor.extract_functions t s, f.line_start ≤ f.line_end) ∧
    (∀ k ∈ CppExtractor.extract_classes t s, k.line_start ≤ k.line_end) ∧
    (∀ (n : Node) (ci : ClassInfo), childByFieldName n "body" = none →
        CExtractor._extract_struct n s = some ci →
        ci.line_end = ci.line_start) ∧
    (∀ (n : Node) (ci : ClassInfo), childByFieldName n "body" = none →
        CppExtractor._extract_class n s = some ci →
        ci.line_end = ci.line_start) :=
  ⟨fun f hf => py_fn_lines t s hrow f hf,
   fun k hk => py_class_lines t s hrow k hk,
   fun f hf => c_fn_lines t s hrow f hf,
   fun k hk => c_struct_lines t s hrow k hk,
   fun f hf => cpp_fn_lines t s hrow f hf,
   fun k hk => cpp_class_lines t s hrow k hk,
   fun n ci hb hc => c_struct_bodyless n s ci hb hc,
   fun n ci hb hc => cpp_class_bodyless n s ci hb hc⟩

/-- Witness for C10: the method `m` of the concrete Python tree spans
lines 2–3, and a bodyless C struct gets equal start and end lines. -/
theorem claim_C10_witness :
    (FunctionInfo.mk "m" 2 3 "def m(self)" (some "C") none).line_start ≤
      (FunctionInfo.mk "m" 2 3 "def m(self)" (some "C") none).line_end ∧
    (ClassInfo.mk "S" 1 1 none none).line_end =
      (ClassInfo.mk "S" 1 1 none none).line_start :=
  ⟨(claim_C10 treePyMethodAssign srcPyMethodAssign (by decide)).1 _ (by decide),
   (claim_C10 treeCStructField srcCStructField (by decide)).2.2.2.2.2.2.1
     nCFwdStruct (ClassInfo.mk "S" 1 1 none none) (by decide) (by decide)⟩
